import Mathlib

/-!
Verification development for the doccer documentation renderer.

The development shallowly embeds the two-stage pipeline of the repository:
the graph parser (src/main.rs `ItemParser`, with the evolved helpers in
src/parser/parser.rs) and the structural renderer
(src/renderer/renders.rs, traits.rs, components.rs).  Raw rustdoc JSON
values are modelled by the inductive `Json` below (numbers are modelled as
integers; floating-point numbers never occur in the shapes the parser
inspects).  Fallible Rust code returning `anyhow::Result` is modelled with
`Except String`; a Rust panic (the string-slice panic reachable in
`parse_macro`) is modelled as an `Except.error` carrying the panic message.
-/

/-- Model of `serde_json::Value`.  Object fields are kept as an ordered
association list; `get` returns the first binding of a key, matching map
lookup for the well-formed single-binding objects rustdoc produces. -/
inductive Json where
  | null : Json
  | bool (b : Bool) : Json
  | num (n : Int) : Json
  | str (s : String) : Json
  | arr (elems : List Json) : Json
  | obj (fields : List (String × Json)) : Json
deriving Inhabited

/-- First binding of a key in an object field list (serde map lookup). -/
def lookupKey : List (String × Json) → String → Option Json
  | [], _ => none
  | (k2, v) :: rest, k => if k2 = k then some v else lookupKey rest k

/-- `serde_json::Value::get` for object keys. -/
def Json.get : Json → String → Option Json
  | .obj fields, k => lookupKey fields k
  | _, _ => none

/-- `Value::as_str`. -/
def Json.asStr : Json → Option String
  | .str s => some s
  | _ => none

/-- `Value::as_bool`. -/
def Json.asBool : Json → Option Bool
  | .bool b => some b
  | _ => none

/-- `Value::as_array`. -/
def Json.asArray : Json → Option (List Json)
  | .arr elems => some elems
  | _ => none

/-- `Value::as_u64`; the model keeps the value as a `Nat` and only checks
non-negativity (ids in the graphs under study are small). -/
def Json.asU64 : Json → Option Nat
  | .num n => if 0 ≤ n then some n.toNat else none
  | _ => none

/-- `Value::is_null`. -/
def Json.isNull : Json → Bool
  | .null => true
  | _ => false

/-- Termination support: a value found by `lookupKey` is structurally
smaller than the field list containing it. -/
def lookupKey_sizeOf_lt : ∀ (fields : List (String × Json)) (k : String)
    (v : Json), lookupKey fields k = some v → sizeOf v < sizeOf fields := by
  intro fields
  induction fields with
  | nil => intro k v h; simp [lookupKey] at h
  | cons hd tl ih =>
      intro k v h
      simp only [lookupKey] at h
      by_cases hk : hd.1 = k
      · rw [if_pos hk] at h
        cases h
        cases hd with
        | mk k2 v2 =>
            simp only [List.cons.sizeOf_spec, Prod.mk.sizeOf_spec]
            omega
      · rw [if_neg hk] at h
        have := ih k v h
        simp only [List.cons.sizeOf_spec]
        omega

/-- Termination support: `Json.get` returns a structurally smaller value. -/
def Json.get_sizeOf_lt : ∀ (j : Json) (k : String) (v : Json),
    j.get k = some v → sizeOf v < sizeOf j := by
  intro j k v h
  cases j with
  | obj fields =>
      have := lookupKey_sizeOf_lt fields k v h
      simp only [Json.obj.sizeOf_spec]
      omega
  | null => simp [Json.get] at h
  | bool b => simp [Json.get] at h
  | num n => simp [Json.get] at h
  | str s => simp [Json.get] at h
  | arr elems => simp [Json.get] at h

/-- Termination support: `Json.asArray` returns a smaller element list. -/
def Json.asArray_sizeOf_lt : ∀ (j : Json) (elems : List Json),
    j.asArray = some elems → sizeOf elems < sizeOf j := by
  intro j elems h
  cases j with
  | arr es =>
      simp only [Json.asArray, Option.some.injEq] at h
      cases h
      simp only [Json.arr.sizeOf_spec]
      omega
  | null => simp [Json.asArray] at h
  | bool b => simp [Json.asArray] at h
  | num n => simp [Json.asArray] at h
  | str s => simp [Json.asArray] at h
  | obj fields => simp [Json.asArray] at h

/-- `Vec::join(sep)` on a list of strings (used for parameter lists,
generic-argument lists, bounds and where-clauses throughout the source). -/
def joinSep (sep : String) : List String → String
  | [] => ""
  | [x] => x
  | x :: rest => x ++ sep ++ joinSep sep rest

/-- `str::split("::")` on character lists (codepoint 58 is the colon):
splits at each leftmost non-overlapping occurrence of the two-character
separator, keeping empty pieces, exactly as Rust `split` does. -/
def splitCC : List Char → List Char → List (List Char)
  | [], acc => [acc.reverse]
  | [c], acc => [(c :: acc).reverse]
  | c1 :: c2 :: rest, acc =>
      if c1.toNat = 58 ∧ c2.toNat = 58 then
        acc.reverse :: splitCC rest []
      else splitCC (c2 :: rest) (c1 :: acc)

/-- `str::split("::")` as used for trait and type paths. -/
def strSplitCC (s : String) : List String :=
  (splitCC s.data []).map String.mk

/-- `str::ends_with` for string patterns. -/
def strEndsWith (s suffix : String) : Bool :=
  suffix.data.isSuffixOf s.data

/-- `str::starts_with` for string patterns. -/
def strStartsWith (s pre : String) : Bool :=
  pre.data.isPrefixOf s.data

/-- `line.trim().is_empty()`: every character is (ASCII) whitespace; the
documentation strings of this development contain no non-ASCII
whitespace. -/
def isBlankStr (s : String) : Bool :=
  s.data.all (fun c =>
    c.toNat = 32 || c.toNat = 9 || c.toNat = 10 ||
    c.toNat = 11 || c.toNat = 12 || c.toNat = 13)

/-- Rendered type expressions: `RustType` from src/parser/types.rs:59-87.
The `DynTrait` variant is the one produced by the evolved resolver in
src/parser/parser.rs:293-339 (the types.rs snapshot predates it). -/
inductive RustType where
  | Primitive (name : String) : RustType
  | Generic (name : String) : RustType
  | Reference (lifetime : Option String) (mutable : Bool)
      (inner : RustType) : RustType
  | Tuple (elements : List RustType) : RustType
  | Slice (inner : RustType) : RustType
  | Array (inner : RustType) (size : String) : RustType
  | Path (path : String) (generics : List RustType) : RustType
  | RawPointer (mutable : Bool) (inner : RustType) : RustType
  | QualifiedPath (base : String) (name : String) : RustType
  | DynTrait (traits : List String) (lifetime : Option String) : RustType
  | Unit : RustType
  | Unknown : RustType
deriving Inhabited

mutual

/-- `impl Display for RustType` from src/parser/types.rs:89-142.
The `DynTrait` case is modelled from the spec (section 3 lists the
variant with its traits and optional lifetime; the snapshot of the
Display impl predates the variant) as `dyn T1 + T2 + 'a`; no theorem
below depends on that case. -/
def displayRustType : RustType → String
  | .Primitive name => name
  | .Generic name => name
  | .Reference lifetime mutable inner =>
      "&" ++ (match lifetime with
              | some l => l ++ " "
              | none => "") ++
      (if mutable then "mut " else "") ++ displayRustType inner
  | .Tuple elements =>
      match elements with
      | [] => "()"
      | es => "(" ++ joinSep ", " (displayRustTypeList es) ++ ")"
  | .Slice inner => "[" ++ displayRustType inner ++ "]"
  | .Array inner size => "[" ++ displayRustType inner ++ "; " ++ size ++ "]"
  | .Path path generics =>
      match generics with
      | [] => path
      | gs => path ++ "<" ++ joinSep ", " (displayRustTypeList gs) ++ ">"
  | .RawPointer mutable inner =>
      (if mutable then "*mut " else "*const ") ++ displayRustType inner
  | .QualifiedPath base name => base ++ "::" ++ name
  | .DynTrait traits lifetime =>
      "dyn " ++ joinSep " + " traits ++
      (match lifetime with
       | some l => " + " ++ l
       | none => "")
  | .Unit => "()"
  | .Unknown => "..."

/-- `elements.iter().map(|e| e.to_string()).collect()`. -/
def displayRustTypeList : List RustType → List String
  | [] => []
  | t :: ts => displayRustType t :: displayRustTypeList ts

end

/-- One hexadecimal digit (lower case), for JSON control-character escapes. -/
def hexDigit (n : Nat) : String :=
  if n = 0 then "0" else if n = 1 then "1" else if n = 2 then "2"
  else if n = 3 then "3" else if n = 4 then "4" else if n = 5 then "5"
  else if n = 6 then "6" else if n = 7 then "7" else if n = 8 then "8"
  else if n = 9 then "9" else if n = 10 then "a" else if n = 11 then "b"
  else if n = 12 then "c" else if n = 13 then "d" else if n = 14 then "e"
  else "f"

/-- serde_json string escaping for one character (quote, backslash and the
short control escapes, other control characters as a unicode escape). -/
def escapeJsonChar (c : Char) : String :=
  if c.toNat = 34 then "\\\""
  else if c.toNat = 92 then "\\\\"
  else if c.toNat = 8 then "\\b"
  else if c.toNat = 12 then "\\f"
  else if c.toNat = 10 then "\\n"
  else if c.toNat = 13 then "\\r"
  else if c.toNat = 9 then "\\t"
  else if c.toNat < 32 then
    "\\u00" ++ hexDigit (c.toNat / 16) ++ hexDigit (c.toNat % 16)
  else String.mk [c]

/-- serde_json string escaping. -/
def escapeJsonStr (s : String) : String :=
  String.join (s.data.map escapeJsonChar)

mutual

/-- `serde_json::Value`'s `Display`/`to_string` (compact form); used by the
type resolver for the `len` field of array types. -/
def serializeJson : Json → String
  | .null => "null"
  | .bool b => if b then "true" else "false"
  | .num n => toString n
  | .str s => "\"" ++ escapeJsonStr s ++ "\""
  | .arr elems => "[" ++ joinSep "," (serializeJsonList elems) ++ "]"
  | .obj fields => "\x7b" ++ joinSep "," (serializeObjFields fields) ++ "\x7d"

/-- Serialization of the elements of a JSON array. -/
def serializeJsonList : List Json → List String
  | [] => []
  | v :: rest => serializeJson v :: serializeJsonList rest

/-- Serialization of the fields of a JSON object. -/
def serializeObjFields : List (String × Json) → List String
  | [] => []
  | (k, v) :: rest =>
      ("\"" ++ escapeJsonStr k ++ "\":" ++ serializeJson v) ::
        serializeObjFields rest

end

/-- `$crate::` path normalization from src/parser/parser.rs:190-203. -/
def normalizePath (path : String) : String :=
  if strStartsWith path "$crate::" then
    if path = "$crate::fmt::Formatter" then "std::fmt::Formatter"
    else if path = "$crate::fmt::Result" then "std::fmt::Result"
    else if path = "$crate::clone::Clone" then "Clone"
    else if path = "$crate::cmp::PartialEq" then "PartialEq"
    else path.replace "$crate::" "std::"
  else path

/-- The type resolver: `ItemParser::parse_type` from
src/parser/parser.rs:164-342.  The sequential `if let` chain of the source
is rendered as a chain of matches; a guard that needs both a key lookup and
a shape test (`as_str`, `as_array`, an inner key) is collapsed into one
`Option.bind` chain, which falls through to the next guard in exactly the
cases the source does.  Total by construction: every shape outside the
recognized set reaches the final `RustType.Unknown`. -/
def parseType (j : Json) : RustType :=
  if j.isNull then .Unit
  else match (j.get "primitive").bind Json.asStr with
  | some primStr => .Primitive primStr
  | none =>
  match (j.get "generic").bind Json.asStr with
  | some genStr => .Generic genStr
  | none =>
  match hrp : j.get "resolved_path" with
  | some resolvedPath =>
      let path := ((resolvedPath.get "path").bind Json.asStr).getD "unknown"
      let normalizedPath := normalizePath path
      let generics :=
        match hchain : (resolvedPath.get "args").bind (fun args =>
            (args.get "angle_bracketed").bind (fun ab =>
              (ab.get "args").bind Json.asArray)) with
        | some argsArray =>
            argsArray.attach.filterMap (fun arg =>
              match harg : arg.1.get "type" with
              | some typeArg => some (parseType typeArg)
              | none => none)
        | none => []
      .Path normalizedPath generics
  | none =>
  match hbr : j.get "borrowed_ref" with
  | some borrowedRef =>
      .Reference ((borrowedRef.get "lifetime").bind Json.asStr)
        (((borrowedRef.get "is_mutable").bind Json.asBool).getD false)
        (match hin : borrowedRef.get "type" with
         | some t => parseType t
         | none => .Unknown)
  | none =>
  match hta : (j.get "tuple").bind Json.asArray with
  | some tupleArray =>
      if tupleArray.isEmpty then .Unit
      else .Tuple (tupleArray.attach.map (fun elem => parseType elem.1))
  | none =>
  match hsl : j.get "slice" with
  | some slice => .Slice (parseType slice)
  | none =>
  match harr : (j.get "array").bind (fun array =>
      (array.get "type").map (fun typeInfo =>
        (typeInfo, ((array.get "len").map serializeJson).getD "N"))) with
  | some (typeInfo, size) => .Array (parseType typeInfo) size
  | none =>
  match hrpt : j.get "raw_pointer" with
  | some rawPointer =>
      .RawPointer (((rawPointer.get "is_mutable").bind Json.asBool).getD false)
        (match hpt : rawPointer.get "type" with
         | some t => parseType t
         | none => .Unknown)
  | none =>
  match (j.get "qualified_path").bind (fun qp =>
      (qp.get "name").bind Json.asStr) with
  | some name => .QualifiedPath "Self" name
  | none =>
  match hdt : j.get "dyn_trait" with
  | some dynTrait =>
      .DynTrait
        (match htr : (dynTrait.get "traits").bind Json.asArray with
         | some traitsArray =>
             traitsArray.attach.filterMap (fun traitItem =>
               match hti : traitItem.1.get "trait" with
               | some traitInfo =>
                   match (traitInfo.get "path").bind Json.asStr with
                   | some path =>
                       let constraintStrs :=
                         match hcon : (traitInfo.get "args").bind (fun args =>
                             (args.get "angle_bracketed").bind (fun ab =>
                               (ab.get "constraints").bind Json.asArray)) with
                         | some constraints =>
                             constraints.attach.filterMap (fun c =>
                               match (c.1.get "name").bind Json.asStr with
                               | some cname =>
                                   match heq : (c.1.get "binding").bind (fun b =>
                                       (b.get "equality").bind (fun e =>
                                         e.get "type")) with
                                   | some ty =>
                                       some (cname ++ " = " ++
                                         displayRustType (parseType ty))
                                   | none => none
                               | none => none)
                         | none => []
                       some (if constraintStrs.isEmpty then path
                             else path ++ "<" ++
                               joinSep ", " constraintStrs ++ ">")
                   | none => none
               | none => none)
         | none => [])
        ((dynTrait.get "lifetime").bind Json.asStr)
  | none => .Unknown
termination_by sizeOf j
decreasing_by
  all_goals simp_wf
  · obtain ⟨args, hargs, h2⟩ := Option.bind_eq_some.mp hchain
    obtain ⟨ab, hab, h3⟩ := Option.bind_eq_some.mp h2
    obtain ⟨inner, hinner, h4⟩ := Option.bind_eq_some.mp h3
    have s1 := Json.get_sizeOf_lt _ _ _ harg
    have s2 := List.sizeOf_lt_of_mem arg.2
    have s3 := Json.asArray_sizeOf_lt _ _ h4
    have s4 := Json.get_sizeOf_lt _ _ _ hinner
    have s5 := Json.get_sizeOf_lt _ _ _ hab
    have s6 := Json.get_sizeOf_lt _ _ _ hargs
    have s7 := Json.get_sizeOf_lt _ _ _ hrp
    omega
  · have s1 := Json.get_sizeOf_lt _ _ _ hin
    have s2 := Json.get_sizeOf_lt _ _ _ hbr
    omega
  · obtain ⟨tu, htu, h2⟩ := Option.bind_eq_some.mp hta
    have s1 := List.sizeOf_lt_of_mem elem.2
    have s2 := Json.asArray_sizeOf_lt _ _ h2
    have s3 := Json.get_sizeOf_lt _ _ _ htu
    omega
  · have s1 := Json.get_sizeOf_lt _ _ _ hsl
    omega
  · obtain ⟨array, harrv, h2⟩ := Option.bind_eq_some.mp harr
    obtain ⟨ti, hti2, h3⟩ := Option.map_eq_some'.mp h2
    obtain ⟨rfl, -⟩ := Prod.mk.injEq .. |>.mp h3
    have s1 := Json.get_sizeOf_lt _ _ _ hti2
    have s2 := Json.get_sizeOf_lt _ _ _ harrv
    omega
  · have s1 := Json.get_sizeOf_lt _ _ _ hpt
    have s2 := Json.get_sizeOf_lt _ _ _ hrpt
    omega
  · obtain ⟨bnd, hbnd, h2⟩ := Option.bind_eq_some.mp heq
    obtain ⟨eqv, heqv, h3⟩ := Option.bind_eq_some.mp h2
    obtain ⟨cons, hcons, h4⟩ := Option.bind_eq_some.mp hcon
    obtain ⟨ab2, hab2, h5⟩ := Option.bind_eq_some.mp h4
    obtain ⟨carr, hcarr, h6⟩ := Option.bind_eq_some.mp h5
    obtain ⟨tl, htl, h7⟩ := Option.bind_eq_some.mp htr
    have s1 := Json.get_sizeOf_lt _ _ _ h3
    have s2 := Json.get_sizeOf_lt _ _ _ heqv
    have s3 := Json.get_sizeOf_lt _ _ _ hbnd
    have s4 := List.sizeOf_lt_of_mem c.2
    have s5 := Json.asArray_sizeOf_lt _ _ h6
    have s6 := Json.get_sizeOf_lt _ _ _ hcarr
    have s7 := Json.get_sizeOf_lt _ _ _ hab2
    have s8 := Json.get_sizeOf_lt _ _ _ hcons
    have s9 := Json.get_sizeOf_lt _ _ _ hti
    have s10 := List.sizeOf_lt_of_mem traitItem.2
    have s11 := Json.asArray_sizeOf_lt _ _ h7
    have s12 := Json.get_sizeOf_lt _ _ _ htl
    have s13 := Json.get_sizeOf_lt _ _ _ hdt
    omega

/-- `rustdoc_types::Visibility` as used by the renderer
(src/renderer/components.rs:13-20); the parser's own `Visibility::Private`
(src/main.rs:121) renders identically to `Default` (empty string), so the
two are identified in `default`. -/
inductive Visibility where
  | public : Visibility
  | crate : Visibility
  | restricted (path : String) : Visibility
  | default : Visibility
deriving Inhabited, DecidableEq

/-- `Deprecation` from src/main.rs:83-88. -/
structure Deprecation where
  since : Option String
  note : Option String
deriving Inhabited, DecidableEq

/-- `GenericParamKind` from src/parser/types.rs:151-155. -/
inductive GenericParamKind where
  | type (bounds : List String) : GenericParamKind
  | lifetime : GenericParamKind
  | const (ty : RustType) : GenericParamKind
deriving Inhabited

/-- `GenericParam` from src/parser/types.rs:145-148. -/
structure GenericParam where
  name : String
  kind : GenericParamKind
deriving Inhabited

/-- `Generics` from src/parser/types.rs:158-161. -/
structure Generics where
  params : List GenericParam
  where_clauses : List String
deriving Inhabited

/-- `FunctionSignature` from src/parser/types.rs:164-170 (the evolved
parser.rs also records an `is_async` flag; no renderer reads it, so the
model omits it). -/
structure FunctionSignature where
  name : String
  visibility : Visibility
  generics : Generics
  inputs : List (String × RustType)
  output : RustType
deriving Inhabited

/-- `ParsedFunction` from src/parser/types.rs:173-177. -/
structure ParsedFunction where
  signature : FunctionSignature
  docs : Option String
  deprecation : Option Deprecation
deriving Inhabited

/-- `ParsedTraitImplItem` from src/parser/types.rs:248-251. -/
inductive ParsedTraitImplItem where
  | assocType (name : String) (ty : RustType) : ParsedTraitImplItem
  | method (func : ParsedFunction) : ParsedTraitImplItem
deriving Inhabited

/-- `ParsedTraitImpl` from src/parser/types.rs:240-245. -/
structure ParsedTraitImpl where
  trait_path : String
  for_type : RustType
  items : List ParsedTraitImplItem
  docs : Option String
deriving Inhabited

/-- `ParsedStruct` from src/parser/types.rs:180-188. -/
structure ParsedStruct where
  name : String
  visibility : Visibility
  generics : Generics
  docs : Option String
  deprecation : Option Deprecation
  methods : List ParsedFunction
  trait_impls : List ParsedTraitImpl
deriving Inhabited

/-- `ParsedTraitItem` from src/parser/types.rs:225-237. -/
inductive ParsedTraitItem where
  | assocType (name : String) (bounds : List String)
      (docs : Option String) : ParsedTraitItem
  | assocConst (name : String) (ty : RustType)
      (docs : Option String) : ParsedTraitItem
  | method (func : ParsedFunction) : ParsedTraitItem
deriving Inhabited

/-- `ParsedTrait` from src/parser/types.rs:215-222. -/
structure ParsedTrait where
  name : String
  visibility : Visibility
  generics : Generics
  items : List ParsedTraitItem
  docs : Option String
  deprecation : Option Deprecation
deriving Inhabited

/-- `VariantKind` from src/parser/types.rs:208-212. -/
inductive VariantKind where
  | unit : VariantKind
  | tuple (types : List RustType) : VariantKind
  | struct2 (fields : List (String × RustType)) : VariantKind
deriving Inhabited

/-- `ParsedVariant` from src/parser/types.rs:201-205. -/
structure ParsedVariant where
  name : String
  kind : VariantKind
  docs : Option String
deriving Inhabited

/-- `ParsedEnum` from src/parser/types.rs:191-198. -/
structure ParsedEnum where
  name : String
  visibility : Visibility
  generics : Generics
  variants : List ParsedVariant
  docs : Option String
  deprecation : Option Deprecation
deriving Inhabited

/-- `ParsedConstant` from src/parser/types.rs:254-260. -/
structure ParsedConstant where
  name : String
  visibility : Visibility
  ty : RustType
  docs : Option String
  deprecation : Option Deprecation
deriving Inhabited

/-- `ParsedMacro` from src/parser/types.rs:271-275. -/
structure ParsedMacro where
  name : String
  signature : String
  docs : Option String
deriving Inhabited

/-- `ParsedReExport` from src/parser/types.rs:278-282. -/
structure ParsedReExport where
  path : String
  name : String
  docs : Option String
deriving Inhabited

mutual

/-- `ParsedModule` from src/parser/types.rs:263-268 (mutually recursive
with `ParsedItem` through its item list). -/
inductive ParsedModule where
  | mk (name : String) (visibility : Visibility)
      (items : List ParsedItem) (docs : Option String) : ParsedModule

/-- `ParsedItem` from src/parser/types.rs:285-295. -/
inductive ParsedItem where
  | Function (f : ParsedFunction) : ParsedItem
  | Struct (s : ParsedStruct) : ParsedItem
  | Enum (e : ParsedEnum) : ParsedItem
  | Trait (t : ParsedTrait) : ParsedItem
  | Constant (c : ParsedConstant) : ParsedItem
  | Module (m : ParsedModule) : ParsedItem
  | Macro (m : ParsedMacro) : ParsedItem
  | TraitImpl (ti : ParsedTraitImpl) : ParsedItem
  | ReExport (re : ParsedReExport) : ParsedItem

end

/-- Field accessor for the mutually-recursive `ParsedModule`. -/
def ParsedModule.name : ParsedModule → String
  | .mk name _ _ _ => name

/-- Field accessor for the mutually-recursive `ParsedModule`. -/
def ParsedModule.items : ParsedModule → List ParsedItem
  | .mk _ _ items _ => items

/-- `OutputFormat` from src/renderer/traits.rs:40-43. -/
inductive OutputFormat where
  | text : OutputFormat
deriving Inhabited, DecidableEq

/-- `RenderContext` from src/renderer/traits.rs:3-8. -/
structure RenderContext where
  depth : Nat
  show_private : Bool
  format : OutputFormat
deriving Inhabited, DecidableEq

/-- `str::repeat`. -/
def strRepeat (s : String) : Nat → String
  | 0 => ""
  | n + 1 => s ++ strRepeat s n

/-- `RenderContext::new` from src/renderer/traits.rs:11-17. -/
def RenderContext.new : RenderContext := ⟨0, false, .text⟩

/-- `RenderContext::with_depth` from src/renderer/traits.rs:19-25. -/
def RenderContext.with_depth (c : RenderContext) (depth : Nat) : RenderContext :=
  ⟨depth, c.show_private, c.format⟩

/-- `RenderContext::indent` from src/renderer/traits.rs:27-29:
two spaces repeated `depth` times. -/
def RenderContext.indent (c : RenderContext) : String :=
  strRepeat "  " c.depth

/-- The apostrophe character as a string (used for lifetime rendering). -/
def aposStr : String := String.mk [Char.ofNat 39]

/-- `TypeRenderer::render_type` from src/renderer/components.rs:9-11. -/
def renderType (ty : RustType) : String := displayRustType ty

/-- `TypeRenderer::render_visibility` from src/renderer/components.rs:13-20. -/
def renderVisibility : Visibility → String
  | .public => "pub "
  | .crate => "pub(crate) "
  | .restricted path => "pub(" ++ path ++ ") "
  | .default => ""

/-- `TypeRenderer::render_generics` from src/renderer/components.rs:22-50. -/
def renderGenerics (generics : Generics) : String :=
  if generics.params.isEmpty then ""
  else
    "<" ++ joinSep ", " (generics.params.map (fun p =>
      match p.kind with
      | .type bounds =>
          if bounds.isEmpty then p.name
          else p.name ++ ": " ++ joinSep " + " bounds
      | .lifetime =>
          if strStartsWith p.name aposStr then p.name else aposStr ++ p.name
      | .const ty => "const " ++ p.name ++ ": " ++ displayRustType ty)) ++ ">"

/-- `TypeRenderer::render_where_clause` from src/renderer/components.rs:52-58. -/
def renderWhereClause (generics : Generics) : String :=
  if generics.where_clauses.isEmpty then ""
  else " where " ++ joinSep ", " generics.where_clauses

/-- The splitting loop of `str::lines` (codepoint 10 is the newline; the
docs in this development contain no carriage returns, so `\r\n` stripping
is not modelled). -/
def linesAux : List Char → List Char → List String
  | [], [] => []
  | [], acc => [String.mk acc.reverse]
  | c :: rest, acc =>
      if c.toNat = 10 then String.mk acc.reverse :: linesAux rest []
      else linesAux rest (c :: acc)

/-- `str::lines`. -/
def rustLines (s : String) : List String :=
  linesAux s.data []

/-- `DocRenderer::render_docs` from src/renderer/components.rs:65-79. -/
def renderDocs (docs : Option String) (indent : String) : String :=
  match docs with
  | none => ""
  | some docs =>
      String.join ((rustLines docs).map (fun line =>
        if isBlankStr line then indent ++ "///\n"
        else indent ++ "/// " ++ line ++ "\n"))

/-- `DocRenderer::render_deprecation` from src/renderer/components.rs:81-91. -/
def renderDeprecation (deprecation : Option Deprecation) (indent : String) :
    String :=
  match deprecation with
  | none => ""
  | some d =>
      match d.since with
      | some sinceVer => indent ++ "DEPRECATED since " ++ sinceVer ++ "\n"
      | none => indent ++ "DEPRECATED\n"

/-- The `self`-parameter rendering shared by every function-like renderer
(src/renderer/renders.rs:35-45, 370-382, 598-613). -/
def renderSelfParam (ty : RustType) : String :=
  match ty with
  | .Reference _ true _ => "&mut self"
  | .Reference _ false _ => "&self"
  | _ => "self"

/-- `impl Render for ParsedFunction` from src/renderer/renders.rs:5-62:
deprecation, then docs, then the one signature line. -/
def ParsedFunction.render (f : ParsedFunction) (context : RenderContext) :
    String :=
  let indent := context.indent
  let sig := f.signature
  let signature :=
    renderVisibility sig.visibility ++ "fn " ++ sig.name ++
    renderGenerics sig.generics ++ "(" ++
    joinSep ", " (sig.inputs.map (fun p =>
      if p.1 = "self" then renderSelfParam p.2
      else p.1 ++ ": " ++ renderType p.2)) ++ ")" ++
    (match sig.output with
     | .Unit => ""
     | _ => " -> " ++ renderType sig.output) ++
    renderWhereClause sig.generics
  renderDeprecation f.deprecation indent ++ renderDocs f.docs indent ++
    indent ++ signature ++ "\n"

/-- `impl Render for ParsedTraitImplItem` from
src/renderer/renders.rs:556-641, including its literal-name special
cases: the `Error` associated type, the dropped `to_string` method, the
`fmt` formatter parameter, and the forced `handle`/`fmt` return types. -/
def ParsedTraitImplItem.render (item : ParsedTraitImplItem)
    (context : RenderContext) : String :=
  let indent := context.indent
  match item with
  | .assocType name ty =>
      if name = "Error" then indent ++ "type Error = HttpError\n"
      else indent ++ "type " ++ name ++ " = " ++ renderType ty ++ "\n"
  | .method func =>
      let sig := func.signature
      if sig.name = "to_string" then ""
      else
        let signature :=
          "fn " ++ sig.name ++ "(" ++
          joinSep ", " (sig.inputs.map (fun p =>
            if p.1 = "self" then renderSelfParam p.2
            else if p.1 = "f" ∧ sig.name = "fmt" then
              "f: &mut std::fmt::Formatter<" ++ aposStr ++ "_>"
            else p.1 ++ ": " ++ renderType p.2)) ++ ")" ++
          (if sig.name = "handle" ∧ sig.inputs.any (fun p => p.1 == "request")
           then " -> Result<HttpResponse, Self::Error>"
           else if sig.name = "fmt" ∧ sig.inputs.any (fun p => p.1 == "f")
           then " -> std::fmt::Result"
           else match sig.output with
                | .Unit => ""
                | _ => " -> " ++ renderType sig.output)
        renderDeprecation func.deprecation indent ++
          renderDocs func.docs indent ++ indent ++ signature ++ "\n" ++
          (if sig.name = "Error" then "\n" else "")

/-- The member loop of `impl Render for ParsedTraitImpl`
(src/renderer/renders.rs:537-546): one blank line between items, none
after the last. -/
def renderImplItemsLoop (items : List ParsedTraitImplItem)
    (context : RenderContext) : String :=
  match items with
  | [] => ""
  | [item] => item.render context
  | item :: rest => item.render context ++ "\n" ++
      renderImplItemsLoop rest context

/-- `impl Render for ParsedTraitImpl` from src/renderer/renders.rs:483-554,
including the auto-generated doc line, the `Protocol` trait-path special
case, and the braceless empty-impl form. -/
def ParsedTraitImpl.render (ti : ParsedTraitImpl) (context : RenderContext) :
    String :=
  let indent := context.indent
  let docsPart :=
    match ti.docs with
    | some docs => renderDocs (some docs) indent
    | none =>
        let typeName :=
          match ti.for_type with
          | .Path path _ => ((strSplitCC path).getLast?).getD "Unknown"
          | .Generic name => name
          | _ => "Unknown"
        let traitName := ((strSplitCC ti.trait_path).getLast?).getD
          ti.trait_path
        indent ++ "/// Implementation of " ++ traitName ++ " trait for " ++
          typeName ++ "\n"
  let signature :=
    "impl " ++
    (if strEndsWith ti.trait_path "Protocol" then
       "Protocol<HttpRequest, HttpResponse>"
     else ti.trait_path) ++
    " for " ++ renderType ti.for_type
  if ti.items.isEmpty then
    docsPart ++ indent ++ signature ++ "\n" ++ "\n"
  else
    docsPart ++ indent ++ signature ++ " \x7b" ++ "\n" ++ "\n" ++
      renderImplItemsLoop ti.items (context.with_depth (context.depth + 1)) ++
      indent ++ "\x7d" ++ "\n" ++ "\n"

/-- The method loop of `impl Render for ParsedStruct`
(src/renderer/renders.rs:116-132): each method is rendered in a derived
context whose depth is the parent depth plus one — except that a struct
literally named `Person` renders its methods at parent depth plus two —
with one blank line between methods, none after the last. -/
def renderStructMethodsLoop (structName : String)
    (methods : List ParsedFunction) (context : RenderContext) : String :=
  let methodContext :=
    if structName = "Person" then context.with_depth (context.depth + 2)
    else context.with_depth (context.depth + 1)
  match methods with
  | [] => ""
  | [m] => m.render methodContext
  | m :: rest => m.render methodContext ++ "\n" ++
      renderStructMethodsLoop structName rest context

/-- `impl Render for ParsedStruct` from src/renderer/renders.rs:64-145,
including the literal-name `Result`/`Storage` where-clause hacks and the
`Person` indentation hack in the method loop. -/
def ParsedStruct.render (s : ParsedStruct) (context : RenderContext) :
    String :=
  let indent := context.indent
  let needsWhereClause :=
    (s.name = "Result" ∧ s.methods.any (fun m => m.signature.name == "ok")) ∨
    (s.name = "Storage" ∧
      s.methods.any (fun m => m.signature.name == "insert")) ∨
    ¬ s.generics.where_clauses.isEmpty
  let signature :=
    renderVisibility s.visibility ++ "struct " ++ s.name ++
    renderGenerics s.generics ++
    (if needsWhereClause then
       (if s.name = "Result" then " where T: Clone, E: Display"
        else if s.name = "Storage" then
          " where K: Clone + Debug + PartialEq + std::hash::Hash, V: Clone + Debug"
        else renderWhereClause s.generics)
     else "") ++ " \x7b"
  renderDeprecation s.deprecation indent ++ renderDocs s.docs indent ++
    indent ++ signature ++ "\n" ++
    (if s.methods.isEmpty then "" else "\n") ++
    renderStructMethodsLoop s.name s.methods context ++
    indent ++ "\x7d" ++ "\n" ++ "\n" ++
    String.join (s.trait_impls.map (fun ti => ti.render context))

/-- Modelled from the spec: the uniform method loop that section 4.4 and
section 9 describe — every recursive render call receives a derived
context at exactly depth plus one, with no per-identifier exception.
Identical to `renderStructMethodsLoop` except for the `Person` branch. -/
def renderStructMethodsLoopUniform (methods : List ParsedFunction)
    (context : RenderContext) : String :=
  let methodContext := context.with_depth (context.depth + 1)
  match methods with
  | [] => ""
  | [m] => m.render methodContext
  | m :: rest => m.render methodContext ++ "\n" ++
      renderStructMethodsLoopUniform rest context

/-- Modelled from the spec: `ParsedStruct.render` with the uniform
depth-plus-one member rule of section 4.4 in place of the `Person`
special case; everything else is identical to the source renderer. -/
def ParsedStruct.renderUniformDepth (s : ParsedStruct)
    (context : RenderContext) : String :=
  let indent := context.indent
  let needsWhereClause :=
    (s.name = "Result" ∧ s.methods.any (fun m => m.signature.name == "ok")) ∨
    (s.name = "Storage" ∧
      s.methods.any (fun m => m.signature.name == "insert")) ∨
    ¬ s.generics.where_clauses.isEmpty
  let signature :=
    renderVisibility s.visibility ++ "struct " ++ s.name ++
    renderGenerics s.generics ++
    (if needsWhereClause then
       (if s.name = "Result" then " where T: Clone, E: Display"
        else if s.name = "Storage" then
          " where K: Clone + Debug + PartialEq + std::hash::Hash, V: Clone + Debug"
        else renderWhereClause s.generics)
     else "") ++ " \x7b"
  renderDeprecation s.deprecation indent ++ renderDocs s.docs indent ++
    indent ++ signature ++ "\n" ++
    (if s.methods.isEmpty then "" else "\n") ++
    renderStructMethodsLoopUniform s.methods context ++
    indent ++ "\x7d" ++ "\n" ++ "\n" ++
    String.join (s.trait_impls.map (fun ti => ti.render context))

/-- `impl Render for ParsedTraitItem` from src/renderer/renders.rs:311-402,
including the `Error`/`Key` associated-type bound hacks. -/
def ParsedTraitItem.render (item : ParsedTraitItem)
    (context : RenderContext) : String :=
  let indent := context.indent
  match item with
  | .assocType name bounds docs =>
      let signature :=
        "type " ++ name ++
        (if name = "Error" ∧ bounds.isEmpty then ": std::error::Error"
         else if name = "Key" ∧ bounds.isEmpty then ": Clone + Debug"
         else if ¬ bounds.isEmpty then ": " ++ joinSep " + " bounds
         else "")
      renderDocs docs indent ++ indent ++ signature ++ "\n"
  | .assocConst name ty docs =>
      renderDocs docs indent ++ indent ++ "const " ++ name ++ ": " ++
        renderType ty ++ "\n"
  | .method func =>
      let sig := func.signature
      let signature :=
        "fn " ++ sig.name ++ "(" ++
        joinSep ", " (sig.inputs.map (fun p =>
          if p.1 = "self" then renderSelfParam p.2
          else p.1 ++ ": " ++ renderType p.2)) ++ ")" ++
        (match sig.output with
         | .Unit => ""
         | _ => " -> " ++ renderType sig.output) ++
        renderWhereClause sig.generics
      renderDeprecation func.deprecation indent ++
        renderDocs func.docs indent ++ indent ++ signature ++ "\n"

/-- A raw graph record: `Item` from src/main.rs:53-71 (the fields the
parser reads; `id`, `crate_id`, `span` and `links` are never consulted). -/
structure Item where
  name : Option String
  visibility : Json
  docs : Option String
  attrs : List String
  deprecation : Option Deprecation
  inner : Json
deriving Inhabited

/-- Association-list lookup for the id-indexed record map. -/
def lookupItem : List (String × Item) → String → Option Item
  | [], _ => none
  | (k2, v) :: rest, k => if k2 = k then some v else lookupItem rest k

/-- The documentation graph: `Crate` from src/main.rs:17-35 (root id plus
the id-indexed record map; ids are the decimal strings of u32 keys). -/
structure Crate where
  root : Nat
  index : List (String × Item)
deriving Inhabited

/-- `self.crate_data.index.get(id)`. -/
def Crate.indexGet (c : Crate) (k : String) : Option Item :=
  lookupItem c.index k

/-- `ItemParser::parse_visibility` from src/main.rs:512-531 (that file's
`Visibility::Private` is the renderer's `default`, both render as the
empty string). -/
def parseVisibility (vis : Json) : Visibility :=
  match vis.asStr with
  | some visStr => if visStr = "public" then .public else .default
  | none =>
      match vis.get "restricted" with
      | some restricted =>
          match (restricted.get "path").bind Json.asStr with
          | some path => if path = "crate" then .crate else .restricted path
          | none => .crate
      | none => .default

/-- Shared bound extraction of `ItemParser::parse_generics`
(src/parser/parser.rs:356-366 and 397-408): each bound contributes its
`trait_bound.trait.path` string when the whole chain is present. -/
def extractBoundPaths (bounds : Json) : List String :=
  ((bounds.asArray).getD []).filterMap (fun bound =>
    (bound.get "trait_bound").bind (fun tb =>
      (tb.get "trait").bind (fun tr => (tr.get "path").bind Json.asStr)))

/-- `ItemParser::parse_generics` from src/parser/parser.rs:344-423 (the
evolved version that also extracts bounds and where-clauses; the
src/main.rs:644-675 copy leaves both empty). -/
def parseGenerics (generics : Json) : Generics :=
  let params :=
    (((generics.get "params").bind Json.asArray).getD []).filterMap
      (fun param =>
        match (param.get "name").bind Json.asStr with
        | some name =>
            match param.get "kind" with
            | some kind =>
                match kind.get "type" with
                | some typeKind =>
                    some (GenericParam.mk name (.type
                      (match typeKind.get "bounds" with
                       | some bounds => extractBoundPaths bounds
                       | none => [])))
                | none =>
                    match kind.get "lifetime" with
                    | some _ => some (GenericParam.mk name .lifetime)
                    | none => none
            | none => none
        | none => none)
  let whereClauses :=
    (((generics.get "where_predicates").bind Json.asArray).getD [])
      |>.filterMap (fun predicate =>
        match predicate.get "bound_predicate" with
        | some bp =>
            match bp.get "type" with
            | some typeInfo =>
                let typeName :=
                  ((typeInfo.get "generic").bind Json.asStr).getD "Self"
                let bounds :=
                  match bp.get "bounds" with
                  | some bounds => extractBoundPaths bounds
                  | none => []
                if bounds.isEmpty then none
                else some (typeName ++ ": " ++ joinSep " + " bounds)
            | none => none
        | none => none)
  ⟨params, whereClauses⟩

/-- `ItemParser::parse_function` from src/main.rs:677-733: the name is
required, everything else degrades to defaults. -/
def parseFunction (item : Item) (funcData : Json) :
    Except String (Option ParsedFunction) :=
  match item.name with
  | none => .error "Function missing name"
  | some name =>
      let visibility := parseVisibility item.visibility
      let generics := ((funcData.get "generics").map parseGenerics).getD ⟨[], []⟩
      let (inputs, output) :=
        match funcData.get "sig" with
        | some sig =>
            ((((sig.get "inputs").bind Json.asArray).getD []).filterMap
               (fun input =>
                 match input.asArray with
                 | some [nameVal, typeVal] =>
                     (nameVal.asStr).map
                       (fun paramName => (paramName, parseType typeVal))
                 | _ => none),
             match sig.get "output" with
             | some outputVal => parseType outputVal
             | none => RustType.Unit)
        | none => ([], RustType.Unit)
      .ok (some ⟨⟨name, visibility, generics, inputs, output⟩,
        item.docs, item.deprecation⟩)

/-- Substring test on character lists (`str::contains` for a literal
pattern). -/
def subListOf (needle : List Char) : List Char → Bool
  | [] => needle.isEmpty
  | c :: rest => needle.isPrefixOf (c :: rest) || subListOf needle rest

/-- `str::contains` for string patterns. -/
def strContainsSub (haystack needle : String) : Bool :=
  subListOf needle.data haystack.data

/-- The fixed trait-suppression list of
`ItemParser::should_filter_trait_impl`, src/parser/parser.rs:37-56. -/
def filteredTraits : List String :=
  ["Send", "Sync", "Freeze", "Unpin", "UnwindSafe", "RefUnwindSafe",
   "Borrow", "BorrowMut", "Into", "From", "TryInto", "TryFrom", "Any",
   "CloneToUninit", "ToOwned", "StructuralPartialEq", "ToString",
   "IntoFuture"]

/-- `ItemParser::should_filter_trait_impl` from src/parser/parser.rs:16-68
(the src/main.rs:377-422 copy is identical except that its list stops
before `ToString` and `IntoFuture`): synthetic marker, derive attribute,
blanket implementation, or suppressed simple trait name. -/
def shouldFilterTraitImpl (implItem : Item) (implData : Json) : Bool :=
  match (implData.get "is_synthetic").bind Json.asBool with
  | some true => true
  | _ =>
    if implItem.attrs.any (fun attr => strContainsSub attr "#[derive") then
      true
    else if (match implData.get "blanket_impl" with
             | some v => !v.isNull
             | none => false) then true
    else
      match (implData.get "trait").bind (fun tr =>
          (tr.get "path").bind Json.asStr) with
      | some traitPath =>
          let traitName := ((strSplitCC traitPath).getLast?).getD traitPath
          filteredTraits.contains traitName
      | none => false

/-- `ItemParser::parse_trait_impl_item` from src/main.rs:1171-1187. -/
def parseTraitImplItem (item : Item) :
    Except String (Option ParsedTraitImplItem) :=
  match item.inner.get "assoc_type" with
  | some assocType =>
      let name := item.name.getD "unknown"
      let ty :=
        match assocType.get "type" with
        | some t => parseType t
        | none => .Unknown
      .ok (some (.assocType name ty))
  | none =>
      match item.inner.get "function" with
      | some funcData => do
          match ← parseFunction item funcData with
          | some parsedFunc => .ok (some (.method parsedFunc))
          | none => .ok none
      | none => .ok none

/-- The member loop of `ItemParser::parse_trait_impl`
(src/main.rs:1112-1126): ids failing `as_u64`, dangling ids and
unrecognized members contribute nothing. -/
def parseTraitImplItemsLoop (c : Crate) :
    List Json → Except String (List ParsedTraitImplItem)
  | [] => .ok []
  | v :: rest => do
      let head ←
        (match v.asU64 with
         | some idNum =>
             match c.indexGet (toString idNum) with
             | some implItem => do
                 match ← parseTraitImplItem implItem with
                 | some it => pure [it]
                 | none => pure ([] : List ParsedTraitImplItem)
             | none => pure []
         | none => pure [])
      let tail ← parseTraitImplItemsLoop c rest
      .ok (head ++ tail)

/-- `ItemParser::parse_trait_impl` from src/main.rs:1094-1137: `None` for
inherent impls (absent or null trait), otherwise trait path, implemented
type and resolved members. -/
def parseTraitImpl (c : Crate) (item : Item) (implData : Json) :
    Except String (Option ParsedTraitImpl) :=
  match implData.get "trait" with
  | some traitRef =>
      if traitRef.isNull then .ok none
      else do
        let traitPath := ((traitRef.get "path").bind Json.asStr).getD "unknown"
        let forType :=
          match implData.get "for" with
          | some t => parseType t
          | none => RustType.Unknown
        let items ← parseTraitImplItemsLoop c
          (((implData.get "items").bind Json.asArray).getD [])
        .ok (some ⟨traitPath, forType, items, item.docs⟩)
  | none => .ok none

/-- The inherent-impl method loop of `ItemParser::parse_struct`
(src/main.rs:769-795). -/
def parseInherentMethodsLoop (c : Crate) :
    List Json → Except String (List ParsedFunction)
  | [] => .ok []
  | v :: rest => do
      let head ←
        (match v.asU64 with
         | some methodIdNum =>
             match c.indexGet (toString methodIdNum) with
             | some methodItem =>
                 match methodItem.inner.get "function" with
                 | some funcData => do
                     match ← parseFunction methodItem funcData with
                     | some m => pure [m]
                     | none => pure ([] : List ParsedFunction)
                 | none => pure []
             | none => pure []
         | none => pure [])
      let tail ← parseInherentMethodsLoop c rest
      .ok (head ++ tail)

/-- The impl-id loop of `ItemParser::parse_struct` (src/main.rs:757-815):
every impl id is resolved; an inherent impl contributes its methods, a
trait impl survives exactly when `shouldFilterTraitImpl` rejects it, and
surviving impls are appended in encounter order. -/
def parseImplsLoop (c : Crate) :
    List Json → Except String (List ParsedFunction × List ParsedTraitImpl)
  | [] => .ok ([], [])
  | v :: rest => do
      let (ms, ts) ←
        (match v.asU64 with
         | some implIdNum =>
             match c.indexGet (toString implIdNum) with
             | some implItem =>
                 match implItem.inner.get "impl" with
                 | some implInner =>
                     let isTraitImpl :=
                       match implInner.get "trait" with
                       | some t => !t.isNull
                       | none => false
                     if isTraitImpl then
                       if shouldFilterTraitImpl implItem implInner then
                         pure (([], []) :
                           List ParsedFunction × List ParsedTraitImpl)
                       else do
                         match ← parseTraitImpl c implItem implInner with
                         | some ti => pure ([], [ti])
                         | none => pure ([], [])
                     else do
                       let ms ← parseInherentMethodsLoop c
                         (((implInner.get "items").bind Json.asArray).getD [])
                       pure (ms, [])
                 | none => pure ([], [])
             | none => pure ([], [])
         | none => pure ([], []))
      let (ms2, ts2) ← parseImplsLoop c rest
      .ok (ms ++ ms2, ts ++ ts2)

/-- `ItemParser::parse_struct` from src/main.rs:735-826 (the evolved
src/parser/parser.rs:491-603 copy additionally collects declared fields,
which no claim concerns): name required, then methods and trait impls
from the impl-id list. -/
def parseStruct (c : Crate) (item : Item) (structData : Json) :
    Except String (Option ParsedStruct) :=
  match item.name with
  | none => .error "Struct missing name"
  | some name => do
      let visibility := parseVisibility item.visibility
      let generics :=
        ((structData.get "generics").map parseGenerics).getD ⟨[], []⟩
      let (methods, traitImpls) ← parseImplsLoop c
        (((structData.get "impls").bind Json.asArray).getD [])
      .ok (some ⟨name, visibility, generics, item.docs, item.deprecation,
        methods, traitImpls⟩)

/-- `ItemParser::parse_variant` from src/main.rs:868-935: name required;
plain, tuple and struct variant shapes, with `Unit` as every fallback. -/
def parseVariant (c : Crate) (item : Item) :
    Except String (Option ParsedVariant) :=
  match item.name with
  | none => .error "Variant missing name"
  | some name =>
      let kind :=
        match item.inner.get "variant" with
        | some variantData =>
            match variantData.get "kind" with
            | some kindData =>
                match kindData.get "plain" with
                | some _ => VariantKind.unit
                | none =>
                    match kindData.get "tuple" with
                    | some tupleFields =>
                        VariantKind.tuple
                          (((tupleFields.asArray).getD []).filterMap
                            (fun fieldId =>
                              (fieldId.asU64).bind (fun n =>
                                (c.indexGet (toString n)).bind (fun fi =>
                                  (fi.inner.get "struct_field").map
                                    (fun fieldInner => parseType fieldInner)))))
                    | none =>
                        match kindData.get "struct" with
                        | some structFields =>
                            VariantKind.struct2
                              ((((structFields.get "fields").bind
                                  Json.asArray).getD []).filterMap
                                (fun fieldId =>
                                  (fieldId.asU64).bind (fun n =>
                                    (c.indexGet (toString n)).bind (fun fi =>
                                      (fi.inner.get "struct_field").map
                                        (fun fieldInner =>
                                          (fi.name.getD "unknown",
                                           parseType fieldInner))))))
                        | none => VariantKind.unit
            | none => VariantKind.unit
        | none => VariantKind.unit
      .ok (some ⟨name, kind, item.docs⟩)

/-- The variant loop of `ItemParser::parse_enum` (src/main.rs:845-856). -/
def parseVariantsLoop (c : Crate) :
    List Json → Except String (List ParsedVariant)
  | [] => .ok []
  | v :: rest => do
      let head ←
        (match v.asU64 with
         | some idNum =>
             match c.indexGet (toString idNum) with
             | some variantItem => do
                 match ← parseVariant c variantItem with
                 | some pv => pure [pv]
                 | none => pure ([] : List ParsedVariant)
             | none => pure []
         | none => pure [])
      let tail ← parseVariantsLoop c rest
      .ok (head ++ tail)

/-- `ItemParser::parse_enum` from src/main.rs:828-866. -/
def parseEnum (c : Crate) (item : Item) (enumData : Json) :
    Except String (Option ParsedEnum) :=
  match item.name with
  | none => .error "Enum missing name"
  | some name => do
      let visibility := parseVisibility item.visibility
      let generics :=
        ((enumData.get "generics").map parseGenerics).getD ⟨[], []⟩
      let variants ← parseVariantsLoop c
        (((enumData.get "variants").bind Json.asArray).getD [])
      .ok (some ⟨name, visibility, generics, variants, item.docs,
        item.deprecation⟩)

/-- `ItemParser::parse_trait_item` from src/main.rs:981-1009. -/
def parseTraitItem (item : Item) : Except String (Option ParsedTraitItem) :=
  match item.inner.get "assoc_type" with
  | some _ =>
      .ok (some (.assocType (item.name.getD "unknown") [] item.docs))
  | none =>
      match item.inner.get "function" with
      | some funcData => do
          match ← parseFunction item funcData with
          | some parsedFunc => .ok (some (.method parsedFunc))
          | none => .ok none
      | none =>
          match item.inner.get "assoc_const" with
          | some assocConst =>
              let ty :=
                match assocConst.get "type" with
                | some t => parseType t
                | none => .Unknown
              .ok (some (.assocConst (item.name.getD "unknown") ty item.docs))
          | none => .ok none

/-- The trait-item loop of `ItemParser::parse_trait`
(src/main.rs:958-969). -/
def parseTraitItemsLoop (c : Crate) :
    List Json → Except String (List ParsedTraitItem)
  | [] => .ok []
  | v :: rest => do
      let head ←
        (match v.asU64 with
         | some idNum =>
             match c.indexGet (toString idNum) with
             | some traitItem => do
                 match ← parseTraitItem traitItem with
                 | some ti => pure [ti]
                 | none => pure ([] : List ParsedTraitItem)
             | none => pure []
         | none => pure [])
      let tail ← parseTraitItemsLoop c rest
      .ok (head ++ tail)

/-- `ItemParser::parse_trait` from src/main.rs:937-979. -/
def parseTrait (c : Crate) (item : Item) (traitData : Json) :
    Except String (Option ParsedTrait) :=
  match item.name with
  | none => .error "Trait missing name"
  | some name => do
      let visibility := parseVisibility item.visibility
      let generics :=
        ((traitData.get "generics").map parseGenerics).getD ⟨[], []⟩
      let items ← parseTraitItemsLoop c
        (((traitData.get "items").bind Json.asArray).getD [])
      .ok (some ⟨name, visibility, generics, items, item.docs,
        item.deprecation⟩)

/-- `ItemParser::parse_constant` from src/main.rs:1011-1034. -/
def parseConstant (item : Item) (constData : Json) :
    Except String (Option ParsedConstant) :=
  match item.name with
  | none => .error "Constant missing name"
  | some name =>
      let visibility := parseVisibility item.visibility
      let ty :=
        match constData.get "type" with
        | some t => parseType t
        | none => .Unknown
      .ok (some ⟨name, visibility, ty, item.docs, item.deprecation⟩)

/-- `ItemParser::parse_use` from src/main.rs:1139-1169: only object
payloads produce a re-export. -/
def parseUse (item : Item) (useData : Json) :
    Except String (Option ParsedReExport) :=
  match useData with
  | .obj _ =>
      let source := ((useData.get "source").bind Json.asStr).getD "unknown"
      let name :=
        ((useData.get "name").bind Json.asStr).getD
          (((strSplitCC source).getLast?).getD "unknown")
      .ok (some ⟨source, name, item.docs⟩)
  | _ => .ok none

/-- `str::find(char)` for the character with the given codepoint: index
of the first occurrence.  On the ASCII characters involved (the two
parentheses) the character index agrees with Rust's byte index. -/
def charFindIdx (t : Nat) : List Char → Option Nat
  | [] => none
  | c :: rest =>
      if c.toNat = t then some 0
      else (charFindIdx t rest).map (fun i => i + 1)

/-- `ItemParser::parse_macro` from src/main.rs:1061-1092
(src/parser/parser.rs:826-856 is the same computation): the signature is
cut between the first opening and the first closing parenthesis of the
raw rule text; when the first closing parenthesis precedes the first
opening one, the source's byte-slice `&macro_str[start + 1..end]` panics,
modelled as the error carrying the Rust panic message. -/
def parseMacroItem (item : Item) (macroData : Json) :
    Except String (Option ParsedMacro) :=
  match item.name with
  | none => .error "Macro missing name"
  | some name =>
      match macroData.asStr with
      | some macroStr =>
          match charFindIdx 40 macroStr.data with
          | some start =>
              match charFindIdx 41 macroStr.data with
              | some endIdx =>
                  if start + 1 ≤ endIdx then
                    let paramsPart := String.mk
                      ((macroStr.data.drop (start + 1)).take
                        (endIdx - (start + 1)))
                    .ok (some ⟨name,
                      "macro_rules! " ++ name ++ "(" ++ paramsPart ++ ")",
                      item.docs⟩)
                  else .error "byte index out of bounds in string slice"
              | none =>
                  .ok (some ⟨name, "macro_rules! " ++ name ++ "(...)",
                    item.docs⟩)
          | none => .ok (some ⟨name, "macro_rules! " ++ name, item.docs⟩)
      | none => .ok (some ⟨name, "macro_rules! " ++ name, item.docs⟩)

/-- serde `Option<bool>` field decoding for `from_value::<Module>`
(src/main.rs:108-115): absent or null is `None`, a boolean is `Some`,
anything else fails the whole deserialization. -/
def decodeOptBool (j : Json) (k : String) : Option (Option Bool) :=
  match j.get k with
  | none => some none
  | some .null => some none
  | some (.bool b) => some (some b)
  | some _ => none

/-- serde `Vec<u32>` decoding: every element must be an integer in u32
range. -/
def decodeU32List : List Json → Option (List Nat)
  | [] => some []
  | v :: rest =>
      match v with
      | .num n =>
          if 0 ≤ n ∧ n < 4294967296 then
            (decodeU32List rest).map (fun l => n.toNat :: l)
          else none
      | _ => none

/-- `serde_json::from_value::<Module>` (src/main.rs:108-115): yields the
module's item-id list; fails on a non-object, a missing or malformed
`items` field, or malformed optional flags. -/
def decodeModule (j : Json) : Option (List Nat) :=
  match j with
  | .obj _ =>
      match decodeOptBool j "is_crate", decodeOptBool j "is_stripped",
        (j.get "items").bind Json.asArray with
      | some _, some _, some elems => decodeU32List elems
      | _, _, _ => none
  | _ => none

mutual

/-- `ItemParser::parse_item` from src/main.rs:450-510 (the typed dispatch
of src/parser/parser.rs:94-161 is behaviorally the same on the one-key
payload objects rustdoc produces): a dangling id contributes nothing; a
found record dispatches on its payload kind.  The `fuel` argument bounds
module-nesting depth, an artifact of the embedding: the source recursion
is unbounded and diverges only on cyclic graphs, which rustdoc does not
produce. -/
def parseItem (fuel : Nat) (c : Crate) (itemId : String) :
    Except String (Option ParsedItem) :=
  match fuel with
  | 0 => .ok none
  | fuel + 1 =>
      match c.indexGet itemId with
      | none => .ok none
      | some item =>
          match item.inner with
          | .obj fields => dispatchFields fuel c item fields
          | _ => .ok none
termination_by (fuel, 0, 0)

/-- The kind dispatch loop of `ItemParser::parse_item`
(src/main.rs:456-507): the first recognized payload key that yields an
item wins; unrecognized kinds are skipped. -/
def dispatchFields (fuel : Nat) (c : Crate) (item : Item) :
    List (String × Json) → Except String (Option ParsedItem)
  | [] => .ok none
  | (kind, innerData) :: rest =>
      if kind = "function" then do
        match ← parseFunction item innerData with
        | some parsed => .ok (some (.Function parsed))
        | none => dispatchFields fuel c item rest
      else if kind = "struct" then do
        match ← parseStruct c item innerData with
        | some parsed => .ok (some (.Struct parsed))
        | none => dispatchFields fuel c item rest
      else if kind = "enum" then do
        match ← parseEnum c item innerData with
        | some parsed => .ok (some (.Enum parsed))
        | none => dispatchFields fuel c item rest
      else if kind = "trait" then do
        match ← parseTrait c item innerData with
        | some parsed => .ok (some (.Trait parsed))
        | none => dispatchFields fuel c item rest
      else if kind = "constant" then do
        match ← parseConstant item innerData with
        | some parsed => .ok (some (.Constant parsed))
        | none => dispatchFields fuel c item rest
      else if kind = "module" then do
        match ← parseModuleItem fuel c item innerData with
        | some parsed => .ok (some (.Module parsed))
        | none => dispatchFields fuel c item rest
      else if kind = "macro" then do
        match ← parseMacroItem item innerData with
        | some parsed => .ok (some (.Macro parsed))
        | none => dispatchFields fuel c item rest
      else if kind = "impl" then do
        match ← parseTraitImpl c item innerData with
        | some parsed => .ok (some (.TraitImpl parsed))
        | none => dispatchFields fuel c item rest
      else if kind = "use" then do
        match ← parseUse item innerData with
        | some parsed => .ok (some (.ReExport parsed))
        | none => dispatchFields fuel c item rest
      else dispatchFields fuel c item rest
termination_by fields => (fuel, 2, fields.length)

/-- `ItemParser::parse_module` from src/main.rs:1036-1059: a payload that
fails `Module` deserialization silently contributes an empty item list. -/
def parseModuleItem (fuel : Nat) (c : Crate) (item : Item)
    (moduleData : Json) : Except String (Option ParsedModule) :=
  let name := item.name.getD "unknown"
  let visibility := parseVisibility item.visibility
  match decodeModule moduleData with
  | some ids => do
      let items ← parseItemsLoop fuel c ids
      .ok (some (.mk name visibility items item.docs))
  | none => .ok (some (.mk name visibility [] item.docs))
termination_by (fuel, 1, 0)

/-- The item loop shared by `parse_crate` and `parse_module`
(src/main.rs:436-440 and 1046-1050): items parse in order and the first
failure aborts the whole loop. -/
def parseItemsLoop (fuel : Nat) (c : Crate) :
    List Nat → Except String (List ParsedItem)
  | [] => .ok []
  | id :: rest => do
      let r ← parseItem fuel c (toString id)
      let restItems ← parseItemsLoop fuel c rest
      match r with
      | some it => .ok (it :: restItems)
      | none => .ok restItems
termination_by ids => (fuel, 0, ids.length)

end

/-- `ItemParser::parse_crate` from src/main.rs:424-448 (the typed copy in
src/parser/parser.rs:70-92 behaves the same): a missing root record is
the fixed fatal error; a found root contributes its name and docs, and
its items exactly when the payload is module-kind and well shaped. -/
def parseCrate (fuel : Nat) (c : Crate) : Except String ParsedModule :=
  match c.indexGet (toString c.root) with
  | none => .error "Root module not found"
  | some rootItem =>
      match rootItem.inner.get "module" with
      | some moduleInner =>
          (match decodeModule moduleInner with
           | some ids => do
               let items ← parseItemsLoop fuel c ids
               .ok (.mk (rootItem.name.getD "unknown") .public items
                 rootItem.docs)
           | none =>
               .ok (.mk (rootItem.name.getD "unknown") .public []
                 rootItem.docs))
      | none =>
          .ok (.mk (rootItem.name.getD "unknown") .public [] rootItem.docs)

/-- A trait-impl record (no synthetic marker, no attrs, no blanket, no
members, no `for` type) for the given trait path. -/
def traitImplRecord (traitName : String) : Item :=
  ⟨none, .null, none, [], none,
    .obj [("impl", .obj [("trait", .obj [("path", .str traitName)])])]⟩

/-- The deduplication-stability scenario of the spec: a struct whose impl
ids resolve to impls of Copy, StructuralPartialEq, PartialEq and a second
PartialEq, in that order. -/
def dedupScenarioCrate : Crate :=
  ⟨0, [("10", traitImplRecord "Copy"),
       ("11", traitImplRecord "StructuralPartialEq"),
       ("12", traitImplRecord "PartialEq"),
       ("13", traitImplRecord "PartialEq")]⟩

/-- The struct record of the deduplication scenario. -/
def dedupScenarioStructItem : Item :=
  ⟨some "Point", .str "public", none, [], none, .null⟩

/-- The struct payload of the deduplication scenario. -/
def dedupScenarioStructData : Json :=
  .obj [("impls", .arr [.num 10, .num 11, .num 12, .num 13])]

/-- The `ParsedStruct` the parser produces for the deduplication
scenario. -/
def dedupScenarioParsed : ParsedStruct :=
  ⟨"Point", .public, ⟨[], []⟩, none, none, [],
   [⟨"Copy", .Unknown, [], none⟩,
    ⟨"PartialEq", .Unknown, [], none⟩,
    ⟨"PartialEq", .Unknown, [], none⟩]⟩

/-- The suppression-set scenario: a `Send` impl next to a `Copy` impl on
the same struct. -/
def sendScenarioCrate : Crate :=
  ⟨0, [("10", traitImplRecord "Send"),
       ("11", traitImplRecord "Copy")]⟩

/-- The struct payload of the suppression-set scenario. -/
def sendScenarioStructData : Json :=
  .obj [("impls", .arr [.num 10, .num 11])]

/-- A graph with an empty index (the root id dangles). -/
def missingRootCrate : Crate := ⟨0, []⟩

/-- A graph whose root record exists but is function-kind, not
module-kind. -/
def nonModuleRootCrate : Crate :=
  ⟨0, [("0", ⟨some "my_crate", .null, none, [], none,
    .obj [("function", .obj [])]⟩)]⟩

/-- A graph whose root module contains one function record that lacks a
name. -/
def namelessFnCrate : Crate :=
  ⟨0, [("0", ⟨some "my_crate", .null, none, [], none,
        .obj [("module", .obj [("items", .arr [.num 1])])]⟩),
       ("1", ⟨none, .null, none, [], none, .obj [("function", .obj [])]⟩)]⟩

/-- A graph whose root module contains a module that contains a nameless
function (nesting depth two). -/
def nestedNamelessFnCrate : Crate :=
  ⟨0, [("0", ⟨some "my_crate", .null, none, [], none,
        .obj [("module", .obj [("items", .arr [.num 1])])]⟩),
       ("1", ⟨some "inner", .null, none, [], none,
        .obj [("module", .obj [("items", .arr [.num 2])])]⟩),
       ("2", ⟨none, .null, none, [], none, .obj [("function", .obj [])]⟩)]⟩

/-- A graph whose root module contains a struct whose inherent impl holds
a nameless method. -/
def structNamelessMethodCrate : Crate :=
  ⟨0, [("0", ⟨some "my_crate", .null, none, [], none,
        .obj [("module", .obj [("items", .arr [.num 1])])]⟩),
       ("1", ⟨some "S", .null, none, [], none,
        .obj [("struct", .obj [("impls", .arr [.num 2])])]⟩),
       ("2", ⟨none, .null, none, [], none,
        .obj [("impl", .obj [("items", .arr [.num 3])])]⟩),
       ("3", ⟨none, .null, none, [], none, .obj [("function", .obj [])]⟩)]⟩

/-- A graph whose root module contains a trait with a nameless method. -/
def traitNamelessMethodCrate : Crate :=
  ⟨0, [("0", ⟨some "my_crate", .null, none, [], none,
        .obj [("module", .obj [("items", .arr [.num 1])])]⟩),
       ("1", ⟨some "T", .null, none, [], none,
        .obj [("trait", .obj [("items", .arr [.num 2])])]⟩),
       ("2", ⟨none, .null, none, [], none, .obj [("function", .obj [])]⟩)]⟩

/-- A macro record named `m` (only the name and docs of the record are
consulted by `parseMacroItem`). -/
def macroRecordM : Item := ⟨some "m", .null, none, [], none, .null⟩

/-- The `pub fn add(a: i32, b: i32) -> i32` scenario function with docs
`"Adds two numbers"`. -/
def addFunction : ParsedFunction :=
  ⟨⟨"add", .public, ⟨[], []⟩,
    [("a", .Primitive "i32"), ("b", .Primitive "i32")], .Primitive "i32"⟩,
   some "Adds two numbers", none⟩

/-- An inherent method `fn age(&self) -> u32` with no docs. -/
def ageMethod : ParsedFunction :=
  ⟨⟨"age", .default, ⟨[], []⟩,
    [("self", .Reference none false (.Generic "Self"))], .Primitive "u32"⟩,
   none, none⟩

/-- A struct literally named `Person` with the one method `age`. -/
def personStruct : ParsedStruct :=
  ⟨"Person", .public, ⟨[], []⟩, none, none, [ageMethod], []⟩

/-- The same struct under the name `Point`. -/
def pointStruct : ParsedStruct :=
  ⟨"Point", .public, ⟨[], []⟩, none, none, [ageMethod], []⟩

/-- A trait-impl method named `handle` taking a `request` parameter and
returning `Unit`. -/
def handleUnitMethod : ParsedFunction :=
  ⟨⟨"handle", .default, ⟨[], []⟩,
    [("request", .Path "HttpRequest" [])], .Unit⟩, none, none⟩

/-- A trait-impl method named `to_string`. -/
def toStringMethod : ParsedFunction :=
  ⟨⟨"to_string", .default, ⟨[], []⟩,
    [("self", .Reference none false (.Generic "Self"))], .Path "String" []⟩,
   none, none⟩

/-- A `Display` trait impl for `Point` whose only member is the
`to_string` method. -/
def displayImplWithToString : ParsedTraitImpl :=
  ⟨"std::fmt::Display", .Path "Point" [], [.method toStringMethod], none⟩

/-- The two-character arrow token, as characters. -/
def arrowChars : List Char := [Char.ofNat 45, Char.ofNat 62]

/-- `s` contains no dash character (codepoint 45); with this on every
data-dependent fragment, a rendered line cannot contain the `->` token. -/
@[reducible] def noDash (s : String) : Prop := ∀ ch ∈ s.data, ch.toNat ≠ 45

/-- All data-dependent fragments of a rendered function signature are
dash-free: the name, the rendered visibility, generics and where-clause,
and every parameter name and rendered parameter type. -/
def sigNoDash (sig : FunctionSignature) : Prop :=
  noDash sig.name ∧ noDash (renderVisibility sig.visibility) ∧
  noDash (renderGenerics sig.generics) ∧
  noDash (renderWhereClause sig.generics) ∧
  ∀ p ∈ sig.inputs, noDash p.1 ∧ noDash (renderType p.2)

/-!
Theorems.  Each claim of the specification is settled by one named
theorem below; shared helper lemmas come first.
-/

/-- `Json.isNull` is false exactly on non-null values. -/
theorem isNull_eq_false_iff (v : Json) : v.isNull = false ↔ v ≠ .null := by
  cases v <;> simp [Json.isNull]

/-- The struct-impl loop distributes over list append: each impl id's
contribution is independent of the others and appended in order, so no
later impl can be suppressed by an earlier one. -/
theorem parseImplsLoop_append (c : Crate) (v1 v2 : List Json) :
    parseImplsLoop c (v1 ++ v2) =
      (parseImplsLoop c v1).bind (fun p1 =>
        (parseImplsLoop c v2).map (fun p2 => (p1.1 ++ p2.1, p1.2 ++ p2.2))) := by
  induction v1 with
  | nil =>
      simp only [List.nil_append, parseImplsLoop]
      cases h : parseImplsLoop c v2 with
      | error e => simp [h, Except.bind, Bind.bind, Except.map]
      | ok p => simp [h, Except.bind, Bind.bind, Except.map]
  | cons v rest ih =>
      simp only [List.cons_append, parseImplsLoop]
      cases hv : (match v.asU64 with
        | some implIdNum =>
            match c.indexGet (toString implIdNum) with
            | some implItem =>
                match implItem.inner.get "impl" with
                | some implInner =>
                    let isTraitImpl :=
                      match implInner.get "trait" with
                      | some t => !t.isNull
                      | none => false
                    if isTraitImpl then
                      if shouldFilterTraitImpl implItem implInner then
                        pure (([], []) :
                          List ParsedFunction × List ParsedTraitImpl)
                      else do
                        match ← parseTraitImpl c implItem implInner with
                        | some ti => pure ([], [ti])
                        | none => pure ([], [])
                    else do
                      let ms ← parseInherentMethodsLoop c
                        (((implInner.get "items").bind Json.asArray).getD [])
                      pure (ms, [])
                | none => pure ([], [])
            | none => pure ([], [])
        | none => pure ([], [])) with
      | error e => simp [hv, Except.bind, Bind.bind]
      | ok p =>
          cases hr : parseImplsLoop c rest with
          | error e => simp [hv, hr, ih, Except.bind, Bind.bind, Except.map]
          | ok q =>
              cases hs : parseImplsLoop c v2 with
              | error e =>
                  simp [hv, hr, hs, ih, Except.bind, Bind.bind, Except.map]
              | ok r2 =>
                  simp [hv, hr, hs, ih, Except.bind, Bind.bind, Except.map,
                    List.append_assoc]

/-- C1 counterexample: for the spec's own scenario — impls for
[Copy, StructuralPartialEq, PartialEq, PartialEq] — `parse_struct` keeps
both surviving `PartialEq` impls, so `trait_impls` holds the same trait
path twice, refuting "at most one TraitImpl per trait path". -/
theorem dedup_scenario_keeps_duplicate_trait_path :
    parseStruct dedupScenarioCrate dedupScenarioStructItem
        dedupScenarioStructData = .ok (some dedupScenarioParsed) ∧
    dedupScenarioParsed.trait_impls.map (fun ti => ti.trait_path) =
      ["Copy", "PartialEq", "PartialEq"] ∧
    (dedupScenarioParsed.trait_impls.map (fun ti => ti.trait_path)).count
      "PartialEq" = 2 :=
  ⟨rfl, rfl, rfl⟩

/-- C1 (amended): surviving trait impls are kept in original encounter
order with no deduplication by trait path — every impl id contributes
independently (the loop distributes over append), and in the
[Copy, StructuralPartialEq, PartialEq, PartialEq] scenario the filtered
`StructuralPartialEq` vanishes while both `PartialEq` impls are kept and
rendered, each with its own block, in encounter order. -/
theorem trait_impls_kept_in_encounter_order_without_dedup :
    (∀ (c : Crate) (v1 v2 : List Json),
      parseImplsLoop c (v1 ++ v2) =
        (parseImplsLoop c v1).bind (fun p1 =>
          (parseImplsLoop c v2).map (fun p2 =>
            (p1.1 ++ p2.1, p1.2 ++ p2.2)))) ∧
    parseStruct dedupScenarioCrate dedupScenarioStructItem
        dedupScenarioStructData = .ok (some dedupScenarioParsed) ∧
    ParsedStruct.render dedupScenarioParsed RenderContext.new =
      "pub struct Point \x7b\n\x7d\n\n/// Implementation of Copy trait for Unknown\nimpl Copy for ...\n\n/// Implementation of PartialEq trait for Unknown\nimpl PartialEq for ...\n\n/// Implementation of PartialEq trait for Unknown\nimpl PartialEq for ...\n\n" :=
  ⟨parseImplsLoop_append, rfl, rfl⟩

/-- C3 counterexample: a root record that exists but is function-kind
(not module-kind) does not fail with `RootNotFound`; `parse_crate`
returns a module with the root's name and an empty item list. -/
theorem non_module_root_returns_empty_module :
    parseCrate 1 nonModuleRootCrate = .ok (.mk "my_crate" .public [] none) :=
  rfl

/-- C3 (amended): `parse_crate` fails with the fixed `RootNotFound`
message exactly when the root id is absent from the index; a root record
that exists but is not module-kind yields a module with the root's name,
docs and an empty item list instead of an error. -/
theorem root_not_found_iff_root_absent :
    (∀ (fuel : Nat) (c : Crate), c.indexGet (toString c.root) = none →
       parseCrate fuel c = .error "Root module not found") ∧
    (∀ (fuel : Nat) (c : Crate) (rootItem : Item),
       c.indexGet (toString c.root) = some rootItem →
       rootItem.inner.get "module" = none →
       parseCrate fuel c =
         .ok (.mk (rootItem.name.getD "unknown") .public []
           rootItem.docs)) := by
  constructor
  · intro fuel c h
    simp [parseCrate, h]
  · intro fuel c rootItem h1 h2
    simp [parseCrate, h1, h2]

/-- C3 witness: both branches of the theorem at concrete graphs — an
empty index fails with the fixed message, and a function-kind root
parses to an empty module. -/
theorem root_not_found_iff_root_absent_witness :
    parseCrate 1 missingRootCrate = .error "Root module not found" ∧
    parseCrate 1 nonModuleRootCrate = .ok (.mk "my_crate" .public [] none) :=
  ⟨root_not_found_iff_root_absent.1 1 missingRootCrate rfl,
   root_not_found_iff_root_absent.2 1 nonModuleRootCrate
     ⟨some "my_crate", .null, none, [], none,
       .obj [("function", .obj [])]⟩ rfl rfl⟩

/-- C9 counterexample: the `pub fn add` scenario function does not render
as signature first and documentation second. -/
theorem add_scenario_signature_first_refuted :
    ParsedFunction.render addFunction RenderContext.new ≠
      "pub fn add(a: i32, b: i32) -> i32\n" ++ "/// Adds two numbers\n" := by
  decide

/-- C9 (amended): a public function `fn add(a: i32, b: i32) -> i32` with
docs "Adds two numbers" renders as the documentation line first,
followed by the signature line. -/
theorem add_scenario_renders_docs_then_signature :
    ParsedFunction.render addFunction RenderContext.new =
      "/// Adds two numbers\n" ++ "pub fn add(a: i32, b: i32) -> i32\n" :=
  rfl

/-- C10: a trait-impl method named `to_string` renders as the empty
string — it is silently dropped from the impl body even though the
surrounding impl renders (shown concretely for a `Display` impl whose
only member is `to_string`: the impl keeps its braces but the body is
empty). -/
theorem to_string_impl_method_renders_empty :
    (∀ (context : RenderContext) (func : ParsedFunction),
       func.signature.name = "to_string" →
       ParsedTraitImplItem.render (.method func) context = "") ∧
    ParsedTraitImpl.render displayImplWithToString RenderContext.new =
      "/// Implementation of Display trait for Point\nimpl std::fmt::Display for Point \x7b\n\n\x7d\n\n" := by
  constructor
  · intro context func h
    simp [ParsedTraitImplItem.render, h]
  · rfl

/-- C10 witness: the theorem applied to the concrete `to_string`
method. -/
theorem to_string_impl_method_renders_empty_witness :
    ParsedTraitImplItem.render (.method toStringMethod) RenderContext.new =
      "" :=
  to_string_impl_method_renders_empty.1 RenderContext.new toStringMethod rfl

/-- C2: type resolution is total and safe on unrecognized shapes — a
non-null value carrying none of the recognized shape keys resolves to
`Unknown` (the function itself is total by construction, so no error is
possible), and `Unknown` renders as `"..."`. -/
theorem unrecognized_type_shape_resolves_to_unknown :
    (∀ j : Json, j.isNull = false →
       j.get "primitive" = none → j.get "generic" = none →
       j.get "resolved_path" = none → j.get "borrowed_ref" = none →
       j.get "tuple" = none → j.get "slice" = none →
       j.get "array" = none → j.get "raw_pointer" = none →
       j.get "qualified_path" = none → j.get "dyn_trait" = none →
       parseType j = .Unknown) ∧
    displayRustType .Unknown = "..." := by
  constructor
  · intro j h0 h1 h2 h3 h4 h5 h6 h7 h8 h9 h10
    rw [parseType.eq_def]
    rw [h0, h1, h2, h3, h4, h5, h6, h7, h8, h9, h10]
    rfl
  · rfl

/-- C2 witness: the theorem applied to a string value, a shape outside
the recognized set. -/
theorem unrecognized_type_shape_resolves_to_unknown_witness :
    parseType (.str "mystery shape") = .Unknown :=
  unrecognized_type_shape_resolves_to_unknown.1 (.str "mystery shape")
    rfl rfl rfl rfl rfl rfl rfl rfl rfl rfl rfl

/-- C5: a candidate trait impl is excluded exactly when it is marked
synthetic, or its item carries a derive attribute, or it is a blanket
implementation, or the last `::`-segment of its trait path is in the
fixed suppression set; in particular (second conjunct) an impl whose
trait's simple name is `Send` never reaches `trait_impls`, regardless of
the other impls on the same type. -/
theorem trait_impl_excluded_iff_filter_condition :
    (∀ (implItem : Item) (implData : Json),
       shouldFilterTraitImpl implItem implData = true ↔
         ((implData.get "is_synthetic").bind Json.asBool = some true ∨
          (∃ attr ∈ implItem.attrs, strContainsSub attr "#[derive" = true) ∨
          (∃ v, implData.get "blanket_impl" = some v ∧ v ≠ Json.null) ∨
          (∃ p, (implData.get "trait").bind (fun tr =>
              (tr.get "path").bind Json.asStr) = some p ∧
            ((strSplitCC p).getLast?).getD p ∈ filteredTraits))) ∧
    parseStruct sendScenarioCrate dedupScenarioStructItem
        sendScenarioStructData =
      .ok (some ⟨"Point", .public, ⟨[], []⟩, none, none, [],
        [⟨"Copy", .Unknown, [], none⟩]⟩) := by
  constructor
  · intro implItem implData
    have hsplit : shouldFilterTraitImpl implItem implData =
        (((implData.get "is_synthetic").bind Json.asBool == some true) ||
         implItem.attrs.any (fun attr => strContainsSub attr "#[derive") ||
         (match implData.get "blanket_impl" with
          | some v => !v.isNull
          | none => false) ||
         (match (implData.get "trait").bind (fun tr =>
             (tr.get "path").bind Json.asStr) with
          | some p =>
              filteredTraits.contains (((strSplitCC p).getLast?).getD p)
          | none => false)) := by
      unfold shouldFilterTraitImpl
      cases hsyn : (implData.get "is_synthetic").bind Json.asBool with
      | some b =>
          cases b with
          | true => simp
          | false =>
              by_cases hd : implItem.attrs.any
                  (fun attr => strContainsSub attr "#[derive") = true
              · simp [hd]
              · simp only [Bool.not_eq_true] at hd
                cases hbl : implData.get "blanket_impl" with
                | some v =>
                    by_cases hnn : v.isNull = true
                    · simp [hd, hnn]
                    · simp only [Bool.not_eq_true] at hnn
                      simp [hd, hnn]
                | none => simp [hd]
      | none =>
          by_cases hd : implItem.attrs.any
              (fun attr => strContainsSub attr "#[derive") = true
          · simp [hd]
          · simp only [Bool.not_eq_true] at hd
            cases hbl : implData.get "blanket_impl" with
            | some v =>
                by_cases hnn : v.isNull = true
                · simp [hd, hnn]
                · simp only [Bool.not_eq_true] at hnn
                  simp [hd, hnn]
            | none => simp [hd]
    rw [hsplit]
    cases hbl : implData.get "blanket_impl" with
    | some v =>
        cases htr : (implData.get "trait").bind (fun tr =>
            (tr.get "path").bind Json.asStr) with
        | some p =>
            simp [hbl, htr, List.any_eq_true, ← isNull_eq_false_iff,
              or_assoc]
        | none =>
            simp [hbl, htr, List.any_eq_true, ← isNull_eq_false_iff,
              or_assoc]
    | none =>
        cases htr : (implData.get "trait").bind (fun tr =>
            (tr.get "path").bind Json.asStr) with
        | some p => simp [hbl, htr, List.any_eq_true, or_assoc]
        | none => simp [hbl, htr, List.any_eq_true, or_assoc]
  · rfl

/-- `"  ".repeat(depth)` is the same string as `2 * depth` space
characters. -/
theorem strRepeat_two_spaces (n : Nat) :
    strRepeat "  " n = String.mk (List.replicate (2 * n) (Char.ofNat 32)) := by
  induction n with
  | zero => rfl
  | succ k ih =>
      show "  " ++ strRepeat "  " k = _
      rw [ih]
      have h2 : 2 * (k + 1) = 2 * k + 1 + 1 := by omega
      rw [h2, List.replicate_succ, List.replicate_succ]
      rfl

/-- For any struct name other than `Person`, the source method loop and
the spec's uniform depth-plus-one loop agree. -/
theorem renderStructMethodsLoop_uniform (name : String) (h : name ≠ "Person") :
    ∀ (methods : List ParsedFunction) (context : RenderContext),
      renderStructMethodsLoop name methods context =
        renderStructMethodsLoopUniform methods context := by
  intro methods
  induction methods with
  | nil => intro context; rfl
  | cons m rest ih =>
      intro context
      cases rest with
      | nil =>
          simp [renderStructMethodsLoop, renderStructMethodsLoopUniform, h]
      | cons m2 r2 =>
          simp [renderStructMethodsLoop, renderStructMethodsLoopUniform, h,
            ih]

/-- C7 counterexample: a struct literally named `Person` renders its one
method — a member at nesting depth one — on a line beginning with four
spaces instead of two, refuting the uniform `2*d` rule with no
per-identifier exceptions. -/
theorem person_member_line_has_four_space_indent :
    rustLines (ParsedStruct.render personStruct RenderContext.new) =
      ["pub struct Person \x7b", "", "    fn age(&self) -> u32", "\x7d",
       ""] ∧
    "    fn age(&self) -> u32" ∈
      rustLines (ParsedStruct.render personStruct RenderContext.new) ∧
    "  fn age(&self) -> u32" ∉
      rustLines (ParsedStruct.render personStruct RenderContext.new) := by
  refine ⟨rfl, ?_, ?_⟩ <;> decide

/-- C7 (amended): the render context's indent is two spaces repeated
depth times (`2*d` space characters), and every recursive struct-member
render receives a derived context at depth exactly one greater — except
that a struct literally named `Person` renders its methods two levels
deeper: for every other struct the source renderer agrees with the
spec's uniform-depth renderer. -/
theorem indent_two_per_depth_and_uniform_except_person :
    (∀ c : RenderContext, c.indent =
       String.mk (List.replicate (2 * c.depth) (Char.ofNat 32))) ∧
    (∀ (s : ParsedStruct) (context : RenderContext), s.name ≠ "Person" →
       ParsedStruct.render s context =
         ParsedStruct.renderUniformDepth s context) := by
  constructor
  · intro c
    show strRepeat "  " c.depth = _
    exact strRepeat_two_spaces c.depth
  · intro s context h
    simp only [ParsedStruct.render, ParsedStruct.renderUniformDepth,
      renderStructMethodsLoop_uniform s.name h]

/-- C7 witness: the theorem at a concrete context of depth 2 and at the
concrete struct `Point`. -/
theorem indent_two_per_depth_and_uniform_except_person_witness :
    (RenderContext.mk 2 false .text).indent =
      String.mk (List.replicate 4 (Char.ofNat 32)) ∧
    ParsedStruct.render pointStruct RenderContext.new =
      ParsedStruct.renderUniformDepth pointStruct RenderContext.new :=
  ⟨indent_two_per_depth_and_uniform_except_person.1 ⟨2, false, .text⟩,
   indent_two_per_depth_and_uniform_except_person.2 pointStruct
     RenderContext.new (by decide)⟩

/-- If every id before `target` in a module's item list parses without
error and `target`'s parse fails, the whole item loop fails with that
error. -/
theorem parseItemsLoop_error (fuel : Nat) (c : Crate) (pre : List Nat)
    (target : Nat) (post : List Nat) (e : String)
    (hpre : ∀ i ∈ pre, ∃ r, parseItem fuel c (toString i) = .ok r)
    (htgt : parseItem fuel c (toString target) = .error e) :
    parseItemsLoop fuel c (pre ++ target :: post) = .error e := by
  induction pre with
  | nil => simp [parseItemsLoop, htgt, Bind.bind, Except.bind]
  | cons p ps ih =>
      obtain ⟨r, hr⟩ := hpre p (by simp)
      have ihh := ih (fun i hi => hpre i (by simp [hi]))
      simp [parseItemsLoop, hr, ihh, Bind.bind, Except.bind]

/-- C4: a missing required name aborts the entire parse with no partial
output — (i) a function-kind record without a name makes `parse_item`
fail with the fixed message; (ii) that failure propagates through any
module-kind record containing it, after any prefix of well-parsed
siblings; (iii) it likewise propagates from the root module out of
`parse_crate` (whose error result carries no partial module); and
concretely a nameless function nested under the root (iv), under a
nested module (v), inside a struct's inherent impl (vi), and inside a
trait (vii) each abort the whole `parse_crate` call. -/
theorem missing_name_aborts_whole_parse :
    (∀ (fuel : Nat) (c : Crate) (id : String) (item : Item)
       (funcData : Json),
       c.indexGet id = some item →
       item.inner = .obj [("function", funcData)] →
       item.name = none →
       parseItem (fuel + 1) c id = .error "Function missing name") ∧
    (∀ (fuel : Nat) (c : Crate) (id : String) (item : Item) (mdata : Json)
       (ids pre post : List Nat) (target : Nat) (e : String),
       c.indexGet id = some item →
       item.inner = .obj [("module", mdata)] →
       decodeModule mdata = some ids →
       ids = pre ++ target :: post →
       (∀ i ∈ pre, ∃ r, parseItem fuel c (toString i) = .ok r) →
       parseItem fuel c (toString target) = .error e →
       parseItem (fuel + 1) c id = .error e) ∧
    (∀ (fuel : Nat) (c : Crate) (rootItem : Item) (mdata : Json)
       (ids pre post : List Nat) (target : Nat) (e : String),
       c.indexGet (toString c.root) = some rootItem →
       rootItem.inner.get "module" = some mdata →
       decodeModule mdata = some ids →
       ids = pre ++ target :: post →
       (∀ i ∈ pre, ∃ r, parseItem fuel c (toString i) = .ok r) →
       parseItem fuel c (toString target) = .error e →
       parseCrate fuel c = .error e) ∧
    parseCrate 2 namelessFnCrate = .error "Function missing name" ∧
    parseCrate 3 nestedNamelessFnCrate = .error "Function missing name" ∧
    parseCrate 2 structNamelessMethodCrate =
      .error "Function missing name" ∧
    parseCrate 2 traitNamelessMethodCrate =
      .error "Function missing name" := by
  have hts0 : toString (0 : Nat) = "0" := rfl
  have hts1 : toString (1 : Nat) = "1" := rfl
  have hts2 : toString (2 : Nat) = "2" := rfl
  have hts3 : toString (3 : Nat) = "3" := rfl
  refine ⟨?_, ?_, ?_, ?_, ?_, ?_, ?_⟩
  · intro fuel c id item funcData hitem hinner hname
    simp [parseItem, hitem, hinner, dispatchFields, parseFunction, hname,
      Bind.bind, Except.bind]
  · intro fuel c id item mdata ids pre post target e hitem hinner hdec
      hids hpre htgt
    subst hids
    have hloop := parseItemsLoop_error fuel c pre target post e hpre htgt
    simp [parseItem, hitem, hinner, dispatchFields, parseModuleItem, hdec,
      hloop, Bind.bind, Except.bind]
  · intro fuel c rootItem mdata ids pre post target e hroot hinner hdec
      hids hpre htgt
    subst hids
    have hloop := parseItemsLoop_error fuel c pre target post e hpre htgt
    simp [parseCrate, hroot, hinner, hdec, hloop, Bind.bind, Except.bind]
  · simp [parseCrate, namelessFnCrate, Crate.indexGet, lookupItem,
      Json.get, lookupKey, decodeModule, decodeOptBool, Json.asArray,
      decodeU32List, parseItemsLoop, parseItem, dispatchFields,
      parseFunction, parseVisibility, Json.asStr, hts0, hts1,
      Bind.bind, Except.bind, Pure.pure, Except.pure]
  · simp [parseCrate, nestedNamelessFnCrate, Crate.indexGet, lookupItem,
      Json.get, lookupKey, decodeModule, decodeOptBool, Json.asArray,
      decodeU32List, parseItemsLoop, parseItem, dispatchFields,
      parseModuleItem, parseFunction, parseVisibility, Json.asStr,
      hts0, hts1, hts2, Bind.bind, Except.bind, Pure.pure, Except.pure]
  · simp [parseCrate, structNamelessMethodCrate, Crate.indexGet,
      lookupItem, Json.get, lookupKey, decodeModule, decodeOptBool,
      Json.asArray, decodeU32List, parseItemsLoop, parseItem,
      dispatchFields, parseStruct, parseImplsLoop,
      parseInherentMethodsLoop, parseFunction, parseVisibility,
      Json.asStr, Json.asU64, hts0, hts1, hts2, hts3, Bind.bind,
      Except.bind, Pure.pure, Except.pure]
  · simp [parseCrate, traitNamelessMethodCrate, Crate.indexGet,
      lookupItem, Json.get, lookupKey, decodeModule, decodeOptBool,
      Json.asArray, decodeU32List, parseItemsLoop, parseItem,
      dispatchFields, parseTrait, parseTraitItemsLoop, parseTraitItem,
      parseFunction, parseVisibility, Json.asStr, Json.asU64, hts0, hts1,
      hts2, Bind.bind, Except.bind, Pure.pure, Except.pure]

/-- C4 witness: the propagation parts of the theorem applied to the
concrete graph whose root module holds one nameless function. -/
theorem missing_name_aborts_whole_parse_witness :
    parseItem 1 namelessFnCrate "1" = .error "Function missing name" ∧
    parseCrate 1 namelessFnCrate = .error "Function missing name" := by
  have h1 : parseItem 1 namelessFnCrate "1" =
      .error "Function missing name" :=
    missing_name_aborts_whole_parse.1 0 namelessFnCrate "1"
      ⟨none, .null, none, [], none, .obj [("function", .obj [])]⟩
      (.obj []) rfl rfl rfl
  refine ⟨h1, ?_⟩
  exact missing_name_aborts_whole_parse.2.2.1 1 namelessFnCrate
    ⟨some "my_crate", .null, none, [], none,
      .obj [("module", .obj [("items", .arr [.num 1])])]⟩
    (.obj [("items", .arr [.num 1])]) [1] [] [] 1 "Function missing name"
    rfl rfl rfl rfl (fun i hi => absurd hi (by simp)) h1

/-- `charFindIdx` finds the first occurrence: a prefix free of the target
codepoint followed by a hit yields the prefix length. -/
theorem charFindIdx_append (t : Nat) (pre : List Char) (a : Char)
    (rest : List Char) (hpre : ∀ ch ∈ pre, ch.toNat ≠ t)
    (ha : a.toNat = t) :
    charFindIdx t (pre ++ a :: rest) = some pre.length := by
  induction pre with
  | nil => simp [charFindIdx, ha]
  | cons c cs ih =>
      have hc := hpre c (by simp)
      have ihh := ih (fun x hx => hpre x (by simp [hx]))
      simp [charFindIdx, hc, ihh]

/-- `charFindIdx` misses on lists free of the target codepoint. -/
theorem charFindIdx_none (t : Nat) (l : List Char)
    (h : ∀ ch ∈ l, ch.toNat ≠ t) : charFindIdx t l = none := by
  induction l with
  | nil => rfl
  | cons c cs ih =>
      have hc := h c (by simp)
      have ihh := ih (fun x hx => h x (by simp [hx]))
      simp [charFindIdx, hc, ihh]

/-- `charFindIdx` hits whenever the character with the target codepoint
is present. -/
theorem charFindIdx_isSome_of_mem (t : Nat) (l : List Char) (a : Char)
    (hmem : a ∈ l) (ha : a.toNat = t) : ∃ k, charFindIdx t l = some k := by
  induction l with
  | nil => cases hmem
  | cons c cs ih =>
      by_cases hc : c.toNat = t
      · exact ⟨0, by simp [charFindIdx, hc]⟩
      · have hac : a ∈ cs := by
          cases hmem with
          | head => exact absurd ha hc
          | tail _ h2 => exact h2
        obtain ⟨k, hk⟩ := ih hac
        exact ⟨k + 1, by simp [charFindIdx, hc, hk]⟩

/-- C8 counterexample: for the macro rule text `")("` — which contains a
`(` — the byte slice `&macro_str[start + 1..end]` panics (the first `)`
precedes the first `(`), so no `macro_rules!` signature is produced at
all, refuting the claimed equation. -/
theorem macro_close_before_open_panics :
    parseMacroItem macroRecordM (.str ")(") =
      .error "byte index out of bounds in string slice" := rfl

/-- C8 (amended): (i) when the raw macro-rule text contains a `(` and
the first `)` of the whole text comes after it, the signature is
`macro_rules! name(params)` where `params` is the substring strictly
between the first `(` and the first `)` — paren nesting is not tracked;
(ii) with no `(` at all the signature is `macro_rules! name`; (iii) with
a `(` but no `)` anywhere it is `macro_rules! name(...)`; and (iv) on
the nested text `"(a(b)c)"` the cut stops at the first `)`, giving
`macro_rules! m(a(b)`. -/
theorem macro_signature_between_first_parens :
    (∀ (item : Item) (nm : String) (pre mid post : List Char),
       item.name = some nm →
       (∀ ch ∈ pre, ch.toNat ≠ 40) →
       (∀ ch ∈ pre, ch.toNat ≠ 41) →
       (∀ ch ∈ mid, ch.toNat ≠ 41) →
       parseMacroItem item (.str (String.mk
           (pre ++ Char.ofNat 40 :: (mid ++ Char.ofNat 41 :: post)))) =
         .ok (some ⟨nm,
           "macro_rules! " ++ nm ++ "(" ++ String.mk mid ++ ")",
           item.docs⟩)) ∧
    (∀ (item : Item) (nm : String) (raw : String),
       item.name = some nm →
       (∀ ch ∈ raw.data, ch.toNat ≠ 40) →
       parseMacroItem item (.str raw) =
         .ok (some ⟨nm, "macro_rules! " ++ nm, item.docs⟩)) ∧
    (∀ (item : Item) (nm : String) (raw : String) (a : Char),
       item.name = some nm →
       a ∈ raw.data → a.toNat = 40 →
       (∀ ch ∈ raw.data, ch.toNat ≠ 41) →
       parseMacroItem item (.str raw) =
         .ok (some ⟨nm, "macro_rules! " ++ nm ++ "(...)", item.docs⟩)) ∧
    parseMacroItem macroRecordM (.str "(a(b)c)") =
      .ok (some ⟨"m", "macro_rules! m(a(b)", none⟩) := by
  refine ⟨?_, ?_, ?_, rfl⟩
  · intro item nm pre mid post hname hpre40 hpre41 hmid41
    have h40 : charFindIdx 40
        (pre ++ Char.ofNat 40 :: (mid ++ Char.ofNat 41 :: post)) =
        some pre.length :=
      charFindIdx_append 40 pre (Char.ofNat 40) _ hpre40 rfl
    have hassoc : pre ++ Char.ofNat 40 :: (mid ++ Char.ofNat 41 :: post) =
        (pre ++ Char.ofNat 40 :: mid) ++ Char.ofNat 41 :: post := by
      simp
    have h41 : charFindIdx 41
        (pre ++ Char.ofNat 40 :: (mid ++ Char.ofNat 41 :: post)) =
        some (pre.length + 1 + mid.length) := by
      rw [hassoc]
      have hfree : ∀ ch ∈ pre ++ Char.ofNat 40 :: mid, ch.toNat ≠ 41 := by
        intro ch hch
        rcases List.mem_append.mp hch with h | h
        · exact hpre41 ch h
        · cases h with
          | head => decide
          | tail _ h2 => exact hmid41 ch h2
      have hlen2 : pre.length + 1 + mid.length =
          pre.length + (mid.length + 1) := by omega
      have := charFindIdx_append 41 (pre ++ Char.ofNat 40 :: mid)
        (Char.ofNat 41) post hfree rfl
      rw [hlen2]
      simpa using this
    have hcond : pre.length + 1 ≤ pre.length + 1 + mid.length := by omega
    have hdrop : (pre ++ Char.ofNat 40 :: (mid ++ Char.ofNat 41 :: post)).drop
        (pre.length + 1) = mid ++ Char.ofNat 41 :: post := by
      have : pre ++ Char.ofNat 40 :: (mid ++ Char.ofNat 41 :: post) =
          (pre ++ [Char.ofNat 40]) ++ (mid ++ Char.ofNat 41 :: post) := by
        simp
      rw [this]
      have hlen : (pre ++ [Char.ofNat 40]).length = pre.length + 1 := by
        simp
      rw [← hlen, List.drop_left]
    have htake : (mid ++ Char.ofNat 41 :: post).take
        (pre.length + 1 + mid.length - (pre.length + 1)) = mid := by
      have : pre.length + 1 + mid.length - (pre.length + 1) = mid.length :=
        by omega
      rw [this, List.take_left]
    simp only [parseMacroItem, hname, Json.asStr, h40, h41, hcond, if_pos,
      hdrop, htake]
  · intro item nm raw hname h40
    have hnone := charFindIdx_none 40 raw.data h40
    simp [parseMacroItem, hname, Json.asStr, hnone]
  · intro item nm raw a hname hmem ha h41
    obtain ⟨k, hk⟩ := charFindIdx_isSome_of_mem 40 raw.data a hmem ha
    have hnone := charFindIdx_none 41 raw.data h41
    simp [parseMacroItem, hname, Json.asStr, hk, hnone]

/-- C8 witness: the three general parts of the theorem at concrete
inputs — `"(x)"`, `"abc"` and `"("`. -/
theorem macro_signature_between_first_parens_witness :
    parseMacroItem macroRecordM (.str (String.mk
        ([] ++ Char.ofNat 40 :: ([Char.ofNat 120] ++
          Char.ofNat 41 :: [])))) =
      .ok (some ⟨"m", "macro_rules! m(x)", none⟩) ∧
    parseMacroItem macroRecordM (.str "abc") =
      .ok (some ⟨"m", "macro_rules! m", none⟩) ∧
    parseMacroItem macroRecordM (.str "(") =
      .ok (some ⟨"m", "macro_rules! m(...)", none⟩) :=
  ⟨macro_signature_between_first_parens.1 macroRecordM "m" []
      [Char.ofNat 120] [] rfl (by decide) (by decide) (by decide),
   macro_signature_between_first_parens.2.1 macroRecordM "m" "abc" rfl
     (by decide),
   macro_signature_between_first_parens.2.2.1 macroRecordM "m" "("
     (Char.ofNat 40) rfl (by decide) (by decide) (by decide)⟩

/-- Character membership distributes over string append. -/
theorem mem_data_append (c : Char) (a b : String) :
    c ∈ (a ++ b).data ↔ c ∈ a.data ∨ c ∈ b.data := by
  rcases a with ⟨la⟩
  rcases b with ⟨lb⟩
  show c ∈ la ++ lb ↔ _
  exact List.mem_append

/-- Appending dash-free strings is dash-free. -/
theorem noDash_append {a b : String} (ha : noDash a) (hb : noDash b) :
    noDash (a ++ b) := by
  intro ch hch
  rcases (mem_data_append ch a b).mp hch with h | h
  · exact ha ch h
  · exact hb ch h

/-- `joinSep` of dash-free strings with a dash-free separator is
dash-free. -/
theorem noDash_joinSep (sep : String) (hsep : noDash sep) :
    ∀ l : List String, (∀ s ∈ l, noDash s) → noDash (joinSep sep l) := by
  intro l
  induction l with
  | nil =>
      intro _ ch hch
      rw [show (joinSep sep []).data = [] from rfl] at hch
      cases hch
  | cons x rest ih =>
      intro hl
      cases rest with
      | nil => simpa [joinSep] using hl x (by simp)
      | cons y r2 =>
          show noDash (x ++ sep ++ joinSep sep (y :: r2))
          exact noDash_append
            (noDash_append (hl x (by simp)) hsep)
            (ih (fun s hs => hl s (by simp [hs])))

/-- Repeating a dash-free string is dash-free. -/
theorem noDash_strRepeat (s : String) (hs : noDash s) (n : Nat) :
    noDash (strRepeat s n) := by
  induction n with
  | zero =>
      intro ch hch
      rw [show (strRepeat s 0).data = [] from rfl] at hch
      cases hch
  | succ k ih => exact noDash_append hs ih

/-- The rendered `self` parameter is one of three dash-free literals. -/
theorem noDash_renderSelfParam (ty : RustType) :
    noDash (renderSelfParam ty) := by
  unfold renderSelfParam
  split <;> decide

/-- Every rendered parameter of a dash-free signature is dash-free; this
covers the `self` forms, the literal `fmt` formatter parameter, and the
plain `name: type` form used by all three function-like renderers. -/
theorem noDash_paramList (sigName : String)
    (inputs : List (String × RustType))
    (h : ∀ p ∈ inputs, noDash p.1 ∧ noDash (renderType p.2)) :
    ∀ s ∈ inputs.map (fun p =>
        if p.1 = "self" then renderSelfParam p.2
        else if p.1 = "f" ∧ sigName = "fmt" then
          "f: &mut std::fmt::Formatter<" ++ aposStr ++ "_>"
        else p.1 ++ ": " ++ renderType p.2), noDash s := by
  intro s hs
  obtain ⟨p, hp, rfl⟩ := List.mem_map.mp hs
  by_cases hself : p.1 = "self"
  · rw [if_pos hself]
    exact noDash_renderSelfParam p.2
  · rw [if_neg hself]
    by_cases hfmt : p.1 = "f" ∧ sigName = "fmt"
    · rw [if_pos hfmt]
      decide
    · rw [if_neg hfmt]
      exact noDash_append (noDash_append (h p hp).1 (by decide)) (h p hp).2

/-- The same fact for the mapping without the `fmt` special case, as in
`ParsedFunction.render` and trait-method rendering. -/
theorem noDash_paramListPlain (inputs : List (String × RustType))
    (h : ∀ p ∈ inputs, noDash p.1 ∧ noDash (renderType p.2)) :
    ∀ s ∈ inputs.map (fun p =>
        if p.1 = "self" then renderSelfParam p.2
        else p.1 ++ ": " ++ renderType p.2), noDash s := by
  intro s hs
  obtain ⟨p, hp, rfl⟩ := List.mem_map.mp hs
  by_cases hself : p.1 = "self"
  · rw [if_pos hself]
    exact noDash_renderSelfParam p.2
  · rw [if_neg hself]
    exact noDash_append (noDash_append (h p hp).1 (by decide)) (h p hp).2

/-- C6 counterexample: a trait-impl method named `handle` with a
`request` parameter and `Unit` output still renders a `->` token (the
forced `Result<HttpResponse, Self::Error>` return of
src/renderer/renders.rs:619-621). -/
theorem handle_unit_method_renders_arrow :
    ParsedTraitImplItem.render (.method handleUnitMethod)
        RenderContext.new =
      "fn handle(request: HttpRequest) " ++ "->" ++
        " Result<HttpResponse, Self::Error>\n" ∧
    arrowChars <:+:
      (ParsedTraitImplItem.render (.method handleUnitMethod)
        RenderContext.new).data := by
  refine ⟨rfl, "fn handle(request: HttpRequest) ".data,
    " Result<HttpResponse, Self::Error>\n".data, ?_⟩
  decide

/-- C6 (amended): a function-like item with `Unit` output renders no
`->` token in its signature line, provided its name, visibility,
generics, where-clauses, and parameter names and types are dash-free —
for free functions and inherent methods (i), trait methods (ii), and
trait-impl methods (iii) as long as the latter are not caught by the
literal-name `handle`/`fmt` forced-return special cases. -/
theorem unit_output_renders_no_arrow :
    (∀ (f : ParsedFunction) (context : RenderContext),
       f.signature.output = .Unit → f.docs = none → f.deprecation = none →
       sigNoDash f.signature →
       ¬ arrowChars <:+: (f.render context).data) ∧
    (∀ (f : ParsedFunction) (context : RenderContext),
       f.signature.output = .Unit → f.docs = none → f.deprecation = none →
       sigNoDash f.signature →
       ¬ arrowChars <:+:
         ((ParsedTraitItem.method f).render context).data) ∧
    (∀ (f : ParsedFunction) (context : RenderContext),
       f.signature.output = .Unit → f.docs = none → f.deprecation = none →
       sigNoDash f.signature →
       ¬ (f.signature.name = "handle" ∧
          f.signature.inputs.any (fun p => p.1 == "request") = true) →
       ¬ (f.signature.name = "fmt" ∧
          f.signature.inputs.any (fun p => p.1 == "f") = true) →
       ¬ arrowChars <:+:
         ((ParsedTraitImplItem.method f).render context).data) := by
  have hindent : ∀ context : RenderContext, noDash context.indent :=
    fun context => noDash_strRepeat "  " (by decide) context.depth
  refine ⟨?_, ?_, ?_⟩
  · intro f context hout hdocs hdep hnod habs
    obtain ⟨hn, hv, hg, hw, hi⟩ := hnod
    have key : noDash (f.render context) := by
      simp only [ParsedFunction.render, hdocs, hdep, hout, renderDocs,
        renderDeprecation]
      refine noDash_append (noDash_append (noDash_append
        (noDash_append ?_ ?_) ?_) ?_) ?_
      · exact fun ch hch => by cases hch
      · exact fun ch hch => by cases hch
      · exact hindent context
      · refine noDash_append (noDash_append (noDash_append
          (noDash_append (noDash_append (noDash_append (noDash_append
            (noDash_append hv (by decide)) hn) hg) (by decide))
              (noDash_joinSep ", " (by decide) _
                (noDash_paramListPlain f.signature.inputs hi)))
                  (by decide)) ?_) hw
        exact fun ch hch => by cases hch
      · decide
    exact key (Char.ofNat 45)
      (habs.subset (by decide : Char.ofNat 45 ∈ arrowChars)) rfl
  · intro f context hout hdocs hdep hnod habs
    obtain ⟨hn, hv, hg, hw, hi⟩ := hnod
    have key : noDash ((ParsedTraitItem.method f).render context) := by
      simp only [ParsedTraitItem.render, hdocs, hdep, hout, renderDocs,
        renderDeprecation]
      refine noDash_append (noDash_append (noDash_append
        (noDash_append ?_ ?_) ?_) ?_) ?_
      · exact fun ch hch => by cases hch
      · exact fun ch hch => by cases hch
      · exact hindent context
      · refine noDash_append (noDash_append (noDash_append
          (noDash_append (noDash_append (noDash_append (by decide) hn)
            (by decide)) (noDash_joinSep ", " (by decide) _
              (noDash_paramListPlain f.signature.inputs hi)))
                (by decide)) ?_) hw
        exact fun ch hch => by cases hch
      · decide
    exact key (Char.ofNat 45)
      (habs.subset (by decide : Char.ofNat 45 ∈ arrowChars)) rfl
  · intro f context hout hdocs hdep hnod hnh hnf habs
    obtain ⟨hn, hv, hg, hw, hi⟩ := hnod
    by_cases hts : f.signature.name = "to_string"
    · rw [show (ParsedTraitImplItem.method f).render context = "" by
        simp [ParsedTraitImplItem.render, hts]] at habs
      obtain ⟨s, t, hst⟩ := habs
      have := congrArg List.length hst
      simp [arrowChars] at this
    · have key : noDash ((ParsedTraitImplItem.method f).render context) := by
        simp only [ParsedTraitImplItem.render, hdocs, hdep, hout,
          renderDocs, renderDeprecation, if_neg hts, if_neg hnh,
          if_neg hnf]
        refine noDash_append (noDash_append (noDash_append
          (noDash_append (noDash_append ?_ ?_) ?_) ?_) ?_) ?_
        · exact fun ch hch => by cases hch
        · exact fun ch hch => by cases hch
        · exact hindent context
        · refine noDash_append (noDash_append (noDash_append
            (noDash_append (noDash_append (by decide) hn) (by decide))
              (noDash_joinSep ", " (by decide) _
                (noDash_paramList f.signature.name f.signature.inputs
                  hi))) (by decide)) ?_
          exact fun ch hch => by cases hch
        · decide
        · split <;> decide
      exact key (Char.ofNat 45)
        (habs.subset (by decide : Char.ofNat 45 ∈ arrowChars)) rfl

/-- C6 witness: all three parts at a concrete zero-argument
`Unit`-returning function `ping`. -/
theorem unit_output_renders_no_arrow_witness :
    ¬ arrowChars <:+: ((ParsedFunction.mk
        ⟨"ping", .public, ⟨[], []⟩, [], .Unit⟩ none none).render
          RenderContext.new).data ∧
    ¬ arrowChars <:+: ((ParsedTraitItem.method (ParsedFunction.mk
        ⟨"ping", .public, ⟨[], []⟩, [], .Unit⟩ none none)).render
          RenderContext.new).data ∧
    ¬ arrowChars <:+: ((ParsedTraitImplItem.method (ParsedFunction.mk
        ⟨"ping", .public, ⟨[], []⟩, [], .Unit⟩ none none)).render
          RenderContext.new).data :=
  ⟨unit_output_renders_no_arrow.1 ⟨⟨"ping", .public, ⟨[], []⟩, [], .Unit⟩,
      none, none⟩ RenderContext.new rfl rfl rfl
      ⟨by decide, by decide, by decide, by decide, by decide⟩,
   unit_output_renders_no_arrow.2.1
     ⟨⟨"ping", .public, ⟨[], []⟩, [], .Unit⟩, none, none⟩
     RenderContext.new rfl rfl rfl
     ⟨by decide, by decide, by decide, by decide, by decide⟩,
   unit_output_renders_no_arrow.2.2
     ⟨⟨"ping", .public, ⟨[], []⟩, [], .Unit⟩, none, none⟩
     RenderContext.new rfl rfl rfl
     ⟨by decide, by decide, by decide, by decide, by decide⟩
     (by decide) (by decide)⟩
